import Mathlib

/-!
Verification development for the mcp-for-database capability attestation
service. The Python sources are shallowly embedded: pure functions become
Lean functions over `Nat`/`Int`/`List`, Python dictionaries become an
explicit JSON-like value type, fallible operations return `Except` with an
explicit Python-exception model, and the mutable stores (lease used-set,
revocation ledger, JWKS cache) become explicit state passing.

Layout:
  1. SHA-256 and HMAC-SHA256 (the `hashlib`/`hmac` primitives the code uses)
  2. Python values (`PyVal`) and canonical JSON (`json.dumps` with
     `sort_keys=True, separators=(",", ":")`)
  3. base64 (`base64.b64encode/b64decode`, url-safe variant)
  4. Models of Python builtins used by the code (`int()`, `dict.get`,
     `hmac.compare_digest`, NaCl key/signature objects)
  5. src/ismx/passport.py (issue/verify passports)
  6. src/tokens.py (capability leases)
  7. src/authy_v4_open (compact tokens, storage, server verify/revoke)
  8. src/auth0_utils.py (`_jwks` cache refresh)
followed by the claim theorems.
-/

set_option maxRecDepth 100000

/-! ## 1. SHA-256 and HMAC-SHA256

A faithful executable SHA-256 over byte lists (`Nat` entries, each < 256),
words represented as `Nat` reduced mod 2^32 wherever overflow matters.
-/

/-- Reduce a word mod 2^32. -/
def w32 (n : Nat) : Nat := n % 4294967296

/-- Addition mod 2^32. -/
def add32 (a b : Nat) : Nat := (a + b) % 4294967296

/-- Rotate a 32-bit word right by `k`. -/
def rotr32 (x k : Nat) : Nat := w32 ((x >>> k) ||| (x <<< (32 - k)))

/-- The 64 SHA-256 round constants of FIPS 180-4 (decimal). -/
def sha256K : List Nat :=
  [1116352408, 1899447441, 3049323471, 3921009573, 961987163,
   1508970993, 2453635748, 2870763221, 3624381080, 310598401,
   607225278, 1426881987, 1925078388, 2162078206, 2614888103,
   3248222580, 3835390401, 4022224774, 264347078, 604807628,
   770255983, 1249150122, 1555081692, 1996064986, 2554220882,
   2821834349, 2952996808, 3210313671, 3336571891, 3584528711,
   113926993, 338241895, 666307205, 773529912, 1294757372,
   1396182291, 1695183700, 1986661051, 2177026350, 2456956037,
   2730485921, 2820302411, 3259730800, 3345764771, 3516065817,
   3600352804, 4094571909, 275423344, 430227734, 506948616,
   659060556, 883997877, 958139571, 1322822218, 1537002063,
   1747873779, 1955562222, 2024104815, 2227730452, 2361852424,
   2428436474, 2756734187, 3204031479, 3329325298]

/-- The eight 32-bit working variables of SHA-256. -/
abbrev State8 := Nat × Nat × Nat × Nat × Nat × Nat × Nat × Nat

/-- SHA-256 initial hash state. -/
def sha256init : State8 :=
  (1779033703, 3144134277, 1013904242, 2773480762,
    1359893119, 2600822924, 528734635, 1541459225)

/-- One SHA-256 compression round, consuming a `(k, w)` constant/schedule pair. -/
def sha256round (st : State8) (kw : Nat × Nat) : State8 :=
  match st, kw with
  | (a, b, c, d, e, f, g, h), (k, w) =>
    let s1 := Nat.xor (rotr32 e 6) (Nat.xor (rotr32 e 11) (rotr32 e 25))
    let ch := Nat.xor (Nat.land e f) (Nat.land (w32 (Nat.xor e 4294967295)) g)
    let t1 := (h + s1 + ch + k + w) % 4294967296
    let s0 := Nat.xor (rotr32 a 2) (Nat.xor (rotr32 a 13) (rotr32 a 22))
    let mj := Nat.xor (Nat.land a b) (Nat.xor (Nat.land a c) (Nat.land b c))
    let t2 := (s0 + mj) % 4294967296
    ((t1 + t2) % 4294967296, a, b, c, (d + t1) % 4294967296, e, f, g)

/-- Word `i` of a 64-byte block, big-endian. -/
def blockWord (block : List Nat) (i : Nat) : Nat :=
  (block.getD (4 * i) 0) * 16777216 + (block.getD (4 * i + 1) 0) * 65536 +
    (block.getD (4 * i + 2) 0) * 256 + block.getD (4 * i + 3) 0

/-- Extend the 16-word message schedule by `n` further words. -/
def schedExtend (ws : List Nat) : Nat → List Nat
  | 0 => ws
  | n + 1 =>
    let i := ws.length
    let w15 := ws.getD (i - 15) 0
    let w2 := ws.getD (i - 2) 0
    let s0 := Nat.xor (rotr32 w15 7) (Nat.xor (rotr32 w15 18) (w15 >>> 3))
    let s1 := Nat.xor (rotr32 w2 17) (Nat.xor (rotr32 w2 19) (w2 >>> 10))
    schedExtend (ws ++ [(ws.getD (i - 16) 0 + s0 + ws.getD (i - 7) 0 + s1) % 4294967296]) n

/-- Full 64-word message schedule of a block. -/
def sha256sched (block : List Nat) : List Nat :=
  schedExtend ((List.range 16).map (blockWord block)) 48

/-- Componentwise addition mod 2^32 of two states. -/
def add8 (x y : State8) : State8 :=
  match x, y with
  | (a, b, c, d, e, f, g, h), (a2, b2, c2, d2, e2, f2, g2, h2) =>
    (add32 a a2, add32 b b2, add32 c c2, add32 d d2, add32 e e2, add32 f f2, add32 g g2, add32 h h2)

/-- Compress one 64-byte block into the running state. -/
def sha256block (st : State8) (block : List Nat) : State8 :=
  add8 st ((List.zip sha256K (sha256sched block)).foldl sha256round st)

/-- Big-endian 8-byte encoding (used for the padded bit length). -/
def be8bytes (n : Nat) : List Nat :=
  [n / 72057594037927936 % 256, n / 281474976710656 % 256, n / 1099511627776 % 256,
   n / 4294967296 % 256, n / 16777216 % 256, n / 65536 % 256, n / 256 % 256, n % 256]

/-- SHA-256 padding: append 0x80, zero bytes to 56 mod 64, then the 64-bit bit length. -/
def sha256pad (msg : List Nat) : List Nat :=
  msg ++ 128 :: List.replicate ((64 - (msg.length + 9) % 64) % 64) 0 ++ be8bytes (8 * msg.length)

/-- Split a byte list into 64-byte blocks; the fuel argument keeps the
recursion structural (callers pass the list length, which is ample). -/
def chunks64 : Nat → List Nat → List (List Nat)
  | 0, _ => []
  | _, [] => []
  | fuel + 1, l => l.take 64 :: chunks64 fuel (l.drop 64)

/-- Big-endian 4-byte encoding of a 32-bit word. -/
def be4bytes (n : Nat) : List Nat := [n / 16777216 % 256, n / 65536 % 256, n / 256 % 256, n % 256]

/-- Serialize the final state as the 32 digest bytes. -/
def stateBytes (st : State8) : List Nat :=
  match st with
  | (a, b, c, d, e, f, g, h) =>
    be4bytes a ++ be4bytes b ++ be4bytes c ++ be4bytes d ++
      be4bytes e ++ be4bytes f ++ be4bytes g ++ be4bytes h

/-- SHA-256 digest (32 bytes) of a byte list. -/
def sha256 (msg : List Nat) : List Nat :=
  let p := sha256pad msg
  stateBytes ((chunks64 p.length p).foldl sha256block sha256init)

/-- FIPS 180-4 test vector: SHA-256 of the ASCII bytes of "abc". -/
example : sha256 [0x61, 0x62, 0x63] =
    [0xba, 0x78, 0x16, 0xbf, 0x8f, 0x01, 0xcf, 0xea, 0x41, 0x41, 0x40, 0xde, 0x5d, 0xae, 0x22, 0x23,
     0xb0, 0x03, 0x61, 0xa3, 0x96, 0x17, 0x7a, 0x9c, 0xb4, 0x10, 0xff, 0x61, 0xf2, 0x00, 0x15, 0xad] := by
  decide

/-- SHA-256 of the empty message (second standard test vector). -/
example : sha256 [] =
    [0xe3, 0xb0, 0xc4, 0x42, 0x98, 0xfc, 0x1c, 0x14, 0x9a, 0xfb, 0xf4, 0xc8, 0x99, 0x6f, 0xb9, 0x24,
     0x27, 0xae, 0x41, 0xe4, 0x64, 0x9b, 0x93, 0x4c, 0xa4, 0x95, 0x99, 0x1b, 0x78, 0x52, 0xb8, 0x55] := by
  decide

theorem be4bytes_lt (n : Nat) : ∀ b ∈ be4bytes n, b < 256 := by
  simp only [be4bytes, List.mem_cons, List.not_mem_nil, or_false]
  rintro b (rfl | rfl | rfl | rfl) <;> exact Nat.mod_lt _ (by norm_num)

theorem stateBytes_length (st : State8) : (stateBytes st).length = 32 := by
  rcases st with ⟨a, b, c, d, e, f, g, h⟩
  simp [stateBytes, be4bytes]

theorem stateBytes_lt (st : State8) : ∀ b ∈ stateBytes st, b < 256 := by
  rcases st with ⟨a, b, c, d, e, f, g, h⟩
  simp only [stateBytes, List.mem_append]
  rintro x (((((((hx | hx) | hx) | hx) | hx) | hx) | hx) | hx) <;> exact be4bytes_lt _ _ hx

/-- A SHA-256 digest is exactly 32 bytes. -/
theorem sha256_length (msg : List Nat) : (sha256 msg).length = 32 := stateBytes_length _

/-- Every byte of a SHA-256 digest is below 256. -/
theorem sha256_bytes_lt (msg : List Nat) : ∀ b ∈ sha256 msg, b < 256 := stateBytes_lt _

/-- HMAC key preparation: hash keys longer than the 64-byte block, then
zero-pad to the block size. -/
def hmacKeyPrep (key : List Nat) : List Nat :=
  let k := if key.length > 64 then sha256 key else key
  k ++ List.replicate (64 - k.length) 0

/-- HMAC-SHA256 (the `hmac.new(key, msg, hashlib.sha256)` digest bytes). -/
def hmacSha256 (key msg : List Nat) : List Nat :=
  let k := hmacKeyPrep key
  sha256 (k.map (fun b => Nat.xor b 92) ++ sha256 (k.map (fun b => Nat.xor b 54) ++ msg))

/-- RFC 4231-style test vector: HMAC-SHA256 with key "key" over
"The quick brown fox jumps over the lazy dog". -/
example : hmacSha256 [0x6b, 0x65, 0x79]
    [0x54, 0x68, 0x65, 0x20, 0x71, 0x75, 0x69, 0x63, 0x6b, 0x20, 0x62, 0x72, 0x6f, 0x77, 0x6e,
     0x20, 0x66, 0x6f, 0x78, 0x20, 0x6a, 0x75, 0x6d, 0x70, 0x73, 0x20, 0x6f, 0x76, 0x65, 0x72,
     0x20, 0x74, 0x68, 0x65, 0x20, 0x6c, 0x61, 0x7a, 0x79, 0x20, 0x64, 0x6f, 0x67] =
    [0xf7, 0xbc, 0x83, 0xf4, 0x30, 0x53, 0x84, 0x24, 0xb1, 0x32, 0x98, 0xe6, 0xaa, 0x6f, 0xb1, 0x43,
     0xef, 0x4d, 0x59, 0xa1, 0x49, 0x46, 0x17, 0x59, 0x97, 0x47, 0x9d, 0xbc, 0x2d, 0x1a, 0x3c, 0xd8] := by
  decide

/-- An HMAC-SHA256 tag is exactly 32 bytes. -/
theorem hmacSha256_length (key msg : List Nat) : (hmacSha256 key msg).length = 32 :=
  sha256_length _

/-- Every byte of an HMAC-SHA256 tag is below 256. -/
theorem hmacSha256_bytes_lt (key msg : List Nat) : ∀ b ∈ hmacSha256 key msg, b < 256 :=
  sha256_bytes_lt _

/-- Hex digit character (lowercase), as `"%x"` formatting produces. -/
def hexChar (n : Nat) : Char := if n < 10 then Char.ofNat (48 + n) else Char.ofNat (87 + n)

/-- Lowercase hex string of a byte list (Python `.hexdigest()`). -/
def hexdigest (l : List Nat) : String :=
  String.mk (l.foldr (fun b acc => hexChar (b / 16) :: hexChar (b % 16) :: acc) [])

/-- UTF-8 encoding of a single character. -/
def utf8Char (c : Char) : List Nat :=
  let n := c.toNat
  if n < 128 then [n]
  else if n < 2048 then [192 + n / 64, 128 + n % 64]
  else if n < 65536 then [224 + n / 4096, 128 + n / 64 % 64, 128 + n % 64]
  else [240 + n / 262144, 128 + n / 4096 % 64, 128 + n / 64 % 64, 128 + n % 64]

/-- UTF-8 encoding of a character list. -/
def utf8Chars (l : List Char) : List Nat := l.foldr (fun c acc => utf8Char c ++ acc) []

/-- UTF-8 encoding of a string (Python `str.encode()`). -/
def utf8Encode (s : String) : List Nat := utf8Chars s.data

/-! ## 2. Python values and canonical JSON

`PyVal` models the JSON-like Python values the service passes around
(dictionary payloads, passports, leases). Mutual inductives keep all
recursion structural, so every definition reduces in the kernel.
-/

mutual
inductive PyVal where
  | str : String → PyVal
  | int : Int → PyVal
  | bool : Bool → PyVal
  | none : PyVal
  | list : PyList → PyVal
  | dict : PyDict → PyVal

inductive PyList where
  | nil : PyList
  | cons : PyVal → PyList → PyList

inductive PyDict where
  | nil : PyDict
  | cons : String → PyVal → PyDict → PyDict
end

mutual
/-- Structural equality test on Python values (Python `==` on JSON-like data;
`True == 1` style numeric cross-type equality is not modeled — the code only
ever compares like-typed values and strings). -/
def pyBeq : PyVal → PyVal → Bool
  | .str a, .str b => a == b
  | .int a, .int b => a == b
  | .bool a, .bool b => a == b
  | .none, .none => true
  | .list a, .list b => pyBeqL a b
  | .dict a, .dict b => pyBeqD a b
  | _, _ => false

def pyBeqL : PyList → PyList → Bool
  | .nil, .nil => true
  | .cons a as, .cons b bs => pyBeq a b && pyBeqL as bs
  | _, _ => false

def pyBeqD : PyDict → PyDict → Bool
  | .nil, .nil => true
  | .cons k a as, .cons k2 b bs => k == k2 && pyBeq a b && pyBeqD as bs
  | _, _ => false
end

mutual
theorem pyBeq_refl : ∀ v : PyVal, pyBeq v v = true
  | .str a => by simp [pyBeq]
  | .int a => by simp [pyBeq]
  | .bool a => by simp [pyBeq]
  | .none => by simp [pyBeq]
  | .list l => by simp [pyBeq, pyBeqL_refl l]
  | .dict d => by simp [pyBeq, pyBeqD_refl d]

theorem pyBeqL_refl : ∀ l : PyList, pyBeqL l l = true
  | .nil => by simp [pyBeqL]
  | .cons a as => by simp [pyBeqL, pyBeq_refl a, pyBeqL_refl as]

theorem pyBeqD_refl : ∀ d : PyDict, pyBeqD d d = true
  | .nil => by simp [pyBeqD]
  | .cons k a as => by simp [pyBeqD, pyBeq_refl a, pyBeqD_refl as]
end

mutual
theorem pyBeq_eq : ∀ v w : PyVal, pyBeq v w = true → v = w
  | .str a, .str b => by simp [pyBeq]
  | .str a, .int b => by simp [pyBeq]
  | .str a, .bool b => by simp [pyBeq]
  | .str a, .none => by simp [pyBeq]
  | .str a, .list b => by simp [pyBeq]
  | .str a, .dict b => by simp [pyBeq]
  | .int a, .str b => by simp [pyBeq]
  | .int a, .int b => by simp [pyBeq]
  | .int a, .bool b => by simp [pyBeq]
  | .int a, .none => by simp [pyBeq]
  | .int a, .list b => by simp [pyBeq]
  | .int a, .dict b => by simp [pyBeq]
  | .bool a, .str b => by simp [pyBeq]
  | .bool a, .int b => by simp [pyBeq]
  | .bool a, .bool b => by simp [pyBeq]
  | .bool a, .none => by simp [pyBeq]
  | .bool a, .list b => by simp [pyBeq]
  | .bool a, .dict b => by simp [pyBeq]
  | .none, .str b => by simp [pyBeq]
  | .none, .int b => by simp [pyBeq]
  | .none, .bool b => by simp [pyBeq]
  | .none, .none => by simp [pyBeq]
  | .none, .list b => by simp [pyBeq]
  | .none, .dict b => by simp [pyBeq]
  | .list a, .str b => by simp [pyBeq]
  | .list a, .int b => by simp [pyBeq]
  | .list a, .bool b => by simp [pyBeq]
  | .list a, .none => by simp [pyBeq]
  | .list a, .list b => fun h => by
    have := pyBeqL_eq a b (by simpa [pyBeq] using h)
    simp [this]
  | .list a, .dict b => by simp [pyBeq]
  | .dict a, .str b => by simp [pyBeq]
  | .dict a, .int b => by simp [pyBeq]
  | .dict a, .bool b => by simp [pyBeq]
  | .dict a, .none => by simp [pyBeq]
  | .dict a, .list b => by simp [pyBeq]
  | .dict a, .dict b => fun h => by
    have := pyBeqD_eq a b (by simpa [pyBeq] using h)
    simp [this]

theorem pyBeqL_eq : ∀ v w : PyList, pyBeqL v w = true → v = w
  | .nil, .nil => by simp
  | .nil, .cons b bs => by simp [pyBeqL]
  | .cons a as, .nil => by simp [pyBeqL]
  | .cons a as, .cons b bs => fun h => by
    simp only [pyBeqL, Bool.and_eq_true] at h
    have h1 := pyBeq_eq a b h.1
    have h2 := pyBeqL_eq as bs h.2
    simp [h1, h2]

theorem pyBeqD_eq : ∀ v w : PyDict, pyBeqD v w = true → v = w
  | .nil, .nil => by simp
  | .nil, .cons k b bs => by simp [pyBeqD]
  | .cons k a as, .nil => by simp [pyBeqD]
  | .cons k a as, .cons k2 b bs => fun h => by
    simp only [pyBeqD, Bool.and_eq_true] at h
    have h1 := pyBeq_eq a b h.1.2
    have h2 := pyBeqD_eq as bs h.2
    have h3 : k = k2 := by simpa using h.1.1
    simp [h1, h2, h3]
end

instance : BEq PyVal := ⟨pyBeq⟩

instance : LawfulBEq PyVal where
  eq_of_beq h := pyBeq_eq _ _ h
  rfl := pyBeq_refl _

instance : DecidableEq PyVal := fun a b =>
  decidable_of_iff (pyBeq a b = true) ⟨pyBeq_eq a b, fun h => h ▸ pyBeq_refl a⟩

/-- Strict code-point comparison of character lists (Python `str <`). -/
def charsLt : List Char → List Char → Bool
  | [], [] => false
  | [], _ :: _ => true
  | _ :: _, [] => false
  | a :: as, b :: bs =>
    if a.toNat < b.toNat then true else if b.toNat < a.toNat then false else charsLt as bs

/-- Python string ordering used by `sort_keys=True`. -/
def strLt (a b : String) : Bool := charsLt a.data b.data

/-- Insert a key/value pair into a key-sorted dict. -/
def dictInsert (k : String) (v : PyVal) : PyDict → PyDict
  | .nil => .cons k v .nil
  | .cons k0 v0 tl => if strLt k k0 then .cons k v (.cons k0 v0 tl) else .cons k0 v0 (dictInsert k v tl)

/-- Sort a dict by key (insertion sort; Python dict keys are unique). -/
def dictSort : PyDict → PyDict
  | .nil => .nil
  | .cons k v tl => dictInsert k v (dictSort tl)

mutual
/-- Recursively sort every dictionary by key, as `json.dumps(sort_keys=True)`
does at every nesting level. -/
def pySortV : PyVal → PyVal
  | .str s => .str s
  | .int n => .int n
  | .bool b => .bool b
  | .none => .none
  | .list l => .list (pySortL l)
  | .dict d => .dict (dictSort (pySortD d))

def pySortL : PyList → PyList
  | .nil => .nil
  | .cons v tl => .cons (pySortV v) (pySortL tl)

def pySortD : PyDict → PyDict
  | .nil => .nil
  | .cons k v tl => .cons k (pySortV v) (pySortD tl)
end

/-- Four lowercase hex digits, as Python `\uXXXX` escapes print them. -/
def hex4 (n : Nat) : List Char :=
  [hexChar (n / 4096 % 16), hexChar (n / 256 % 16), hexChar (n / 16 % 16), hexChar (n % 16)]

/-- JSON escape of one character with `ensure_ascii=True` (the `json.dumps`
default): printable ASCII passes through, `"` and `\` get two-character
escapes, the short control escapes are used where Python uses them, and
everything else (controls and all non-ASCII) becomes `\uXXXX`, with
surrogate pairs above U+FFFF. -/
def jsonEscChar (c : Char) : List Char :=
  if c = '"' then ['\\', '"']
  else if c = '\\' then ['\\', '\\']
  else if c.toNat = 8 then ['\\', 'b']
  else if c.toNat = 9 then ['\\', 't']
  else if c.toNat = 10 then ['\\', 'n']
  else if c.toNat = 12 then ['\\', 'f']
  else if c.toNat = 13 then ['\\', 'r']
  else if c.toNat < 32 ∨ c.toNat > 126 then
    if c.toNat < 65536 then '\\' :: 'u' :: hex4 c.toNat
    else '\\' :: 'u' :: hex4 (55296 + (c.toNat - 65536) / 1024) ++
      '\\' :: 'u' :: hex4 (56320 + (c.toNat - 65536) % 1024)
  else [c]

/-- JSON string literal chars of a Python string. -/
def jsonStr (s : String) : List Char :=
  '"' :: s.data.foldr (fun c acc => jsonEscChar c ++ acc) ['"']

/-- Decimal digits of a natural number; the first argument is fuel (callers
pass `n` itself, which bounds the digit count) keeping recursion structural. -/
def natDigits : Nat → Nat → List Char
  | 0, _ => []
  | fuel + 1, n => if n = 0 then [] else natDigits fuel (n / 10) ++ [Char.ofNat (48 + n % 10)]

/-- Decimal representation of a natural number. -/
def natDec (n : Nat) : List Char := if n = 0 then ['0'] else natDigits n n

/-- Decimal representation of an integer (Python `repr` of an `int`). -/
def intDec (i : Int) : List Char := if i < 0 then '-' :: natDec i.natAbs else natDec i.natAbs

mutual
/-- Serialize an already-key-sorted value with separators `(",", ":")`. -/
def serV : PyVal → List Char
  | .str s => jsonStr s
  | .int n => intDec n
  | .bool b => if b then ['t', 'r', 'u', 'e'] else ['f', 'a', 'l', 's', 'e']
  | .none => ['n', 'u', 'l', 'l']
  | .list l => '[' :: serL l ++ [']']
  | .dict d => '{' :: serD d ++ ['}']

def serL : PyList → List Char
  | .nil => []
  | .cons v .nil => serV v
  | .cons v tl => serV v ++ ',' :: serL tl

def serD : PyDict → List Char
  | .nil => []
  | .cons k v .nil => jsonStr k ++ ':' :: serV v
  | .cons k v tl => jsonStr k ++ ':' :: serV v ++ ',' :: serD tl
end

/-- Canonical JSON characters: `json.dumps(v, sort_keys=True, separators=(",", ":"))`. -/
def jsonCanon (v : PyVal) : List Char := serV (pySortV v)

/-- Canonical JSON encoded to UTF-8 bytes, as every signed or MACed payload
in the code is (`json.dumps(...).encode()`). -/
def jsonBytes (v : PyVal) : List Nat := utf8Chars (jsonCanon v)

/-- Cross-check with CPython: json.dumps({"b":1,"a":[true,null,"x\n"],"c":-2},
sort_keys=True, separators=(",",":")) == '{"a":[true,null,"x\n"],"b":1,"c":-2}'
(with the newline escaped). -/
example : jsonCanon (.dict (.cons "b" (.int 1) (.cons "a"
    (.list (.cons (.bool true) (.cons .none (.cons (.str "x\n") .nil))))
    (.cons "c" (.int (-2)) .nil)))) =
    ('\x7b' :: "\"a\":[true,null,\"x\\n\"],\"b\":1,\"c\":-2".data ++ ['\x7d']) := by
  decide

/-! ## 3. base64

Standard-alphabet base64 with padding (`base64.b64encode/b64decode`, used by
passports) and the url-safe unpadded variant (`b64url` in
src/authy_v4_open/crypto.py, used by compact tokens). Decoding models
CPython's `validate=False` path: characters outside the alphabet are
discarded, then strict 4-character groups with trailing padding are
required, anything else being a `binascii.Error` (a `ValueError`).
-/

/-- Standard base64 alphabet. -/
def b64CharStd (n : Nat) : Char :=
  if n < 26 then Char.ofNat (65 + n)
  else if n < 52 then Char.ofNat (97 + (n - 26))
  else if n < 62 then Char.ofNat (48 + (n - 52))
  else if n = 62 then '+' else '/'

/-- URL-safe base64 alphabet (`-` and `_` for the last two values). -/
def b64CharUrl (n : Nat) : Char :=
  if n = 62 then '-' else if n = 63 then '_' else b64CharStd n

/-- Encode bytes as base64 characters with `=` padding, three bytes per group. -/
def b64encChars (cs : Nat → Char) : List Nat → List Char
  | [] => []
  | [b1] => [cs (b1 / 4), cs (b1 % 4 * 16), '=', '=']
  | [b1, b2] => [cs (b1 / 4), cs (b1 % 4 * 16 + b2 / 16), cs (b2 % 16 * 4), '=']
  | b1 :: b2 :: b3 :: rest =>
    cs (b1 / 4) :: cs (b1 % 4 * 16 + b2 / 16) :: cs (b2 % 16 * 4 + b3 / 64) :: cs (b3 % 64) ::
      b64encChars cs rest

/-- Python `base64.b64encode(bytes).decode()`. -/
def b64encode (bs : List Nat) : String := String.mk (b64encChars b64CharStd bs)

/-- Value of one standard-alphabet base64 character. -/
def b64ValStd (c : Char) : Option Nat :=
  if 65 ≤ c.toNat ∧ c.toNat ≤ 90 then some (c.toNat - 65)
  else if 97 ≤ c.toNat ∧ c.toNat ≤ 122 then some (c.toNat - 97 + 26)
  else if 48 ≤ c.toNat ∧ c.toNat ≤ 57 then some (c.toNat - 48 + 52)
  else if c = '+' then some 62
  else if c = '/' then some 63
  else Option.none

/-- Characters `b64decode` keeps (alphabet plus padding); all others are discarded. -/
def b64Keep (c : Char) : Bool := (b64ValStd c).isSome || c == '='

/-- Decode base64 characters in strict groups of four with trailing padding. -/
def b64decGroups : List Char → Option (List Nat)
  | [] => some []
  | c1 :: c2 :: c3 :: c4 :: rest =>
    match b64ValStd c1, b64ValStd c2 with
    | some v1, some v2 =>
      if c3 = '=' then
        if c4 = '=' ∧ rest = [] then some [v1 * 4 + v2 / 16] else Option.none
      else
        match b64ValStd c3 with
        | some v3 =>
          if c4 = '=' then
            if rest = [] then some [v1 * 4 + v2 / 16, v2 % 16 * 16 + v3 / 4] else Option.none
          else
            match b64ValStd c4 with
            | some v4 =>
              match b64decGroups rest with
              | some tl =>
                some ((v1 * 4 + v2 / 16) :: (v2 % 16 * 16 + v3 / 4) :: (v3 % 4 * 64 + v4) :: tl)
              | Option.none => Option.none
            | Option.none => Option.none
        | Option.none => Option.none
    | _, _ => Option.none
  | _ => Option.none

/-- Python `base64.b64decode` on a string: discard non-alphabet characters,
then decode strict groups; `none` models `binascii.Error`. -/
def b64decodeChars (l : List Char) : Option (List Nat) := b64decGroups (l.filter b64Keep)

theorem b64ValStd_b64CharStd : ∀ n, n < 64 → b64ValStd (b64CharStd n) = some n := by decide

theorem b64CharStd_ne_pad : ∀ n, n < 64 → (b64CharStd n = '=') = False := by decide

theorem b64Keep_b64CharStd : ∀ n, n < 64 → b64Keep (b64CharStd n) = true := by decide

theorem b64Keep_pad : b64Keep '=' = true := by decide

theorem b64enc_filter : ∀ bs : List Nat, (∀ b ∈ bs, b < 256) →
    (b64encChars b64CharStd bs).filter b64Keep = b64encChars b64CharStd bs
  | [] => fun _ => rfl
  | [b1] => fun h => by
    have h1 : b1 < 256 := h b1 (by simp)
    simp [b64encChars, List.filter,
      b64Keep_b64CharStd (b1 / 4) (by omega), b64Keep_b64CharStd (b1 % 4 * 16) (by omega),
      b64Keep_pad]
  | [b1, b2] => fun h => by
    have h1 : b1 < 256 := h b1 (by simp)
    have h2 : b2 < 256 := h b2 (by simp)
    simp [b64encChars, List.filter,
      b64Keep_b64CharStd (b1 / 4) (by omega),
      b64Keep_b64CharStd (b1 % 4 * 16 + b2 / 16) (by omega),
      b64Keep_b64CharStd (b2 % 16 * 4) (by omega), b64Keep_pad]
  | b1 :: b2 :: b3 :: rest => fun h => by
    have h1 : b1 < 256 := h b1 (by simp)
    have h2 : b2 < 256 := h b2 (by simp)
    have h3 : b3 < 256 := h b3 (by simp)
    have ih := b64enc_filter rest (fun b hb => h b (by simp [hb]))
    simp only [b64encChars, List.filter_cons]
    simp [b64Keep_b64CharStd (b1 / 4) (by omega),
      b64Keep_b64CharStd (b1 % 4 * 16 + b2 / 16) (by omega),
      b64Keep_b64CharStd (b2 % 16 * 4 + b3 / 64) (by omega),
      b64Keep_b64CharStd (b3 % 64) (by omega), ih]

theorem b64dec_enc : ∀ bs : List Nat, (∀ b ∈ bs, b < 256) →
    b64decGroups (b64encChars b64CharStd bs) = some bs
  | [] => fun _ => rfl
  | [b1] => fun h => by
    have h1 : b1 < 256 := h b1 (by simp)
    have e1 : b1 / 4 * 4 + b1 % 4 * 16 / 16 = b1 := by omega
    simp only [b64encChars, b64decGroups,
      b64ValStd_b64CharStd (b1 / 4) (by omega), b64ValStd_b64CharStd (b1 % 4 * 16) (by omega)]
    simp
    omega
  | [b1, b2] => fun h => by
    have h1 : b1 < 256 := h b1 (by simp)
    have h2 : b2 < 256 := h b2 (by simp)
    have e1 : b1 / 4 * 4 + (b1 % 4 * 16 + b2 / 16) / 16 = b1 := by omega
    have e2 : (b1 % 4 * 16 + b2 / 16) % 16 * 16 + b2 % 16 * 4 / 4 = b2 := by omega
    simp only [b64encChars, b64decGroups,
      b64ValStd_b64CharStd (b1 / 4) (by omega),
      b64ValStd_b64CharStd (b1 % 4 * 16 + b2 / 16) (by omega),
      b64ValStd_b64CharStd (b2 % 16 * 4) (by omega)]
    simp [b64CharStd_ne_pad (b2 % 16 * 4) (by omega), e1]
    omega
  | b1 :: b2 :: b3 :: rest => fun h => by
    have h1 : b1 < 256 := h b1 (by simp)
    have h2 : b2 < 256 := h b2 (by simp)
    have h3 : b3 < 256 := h b3 (by simp)
    have ih := b64dec_enc rest (fun b hb => h b (by simp [hb]))
    have e1 : b1 / 4 * 4 + (b1 % 4 * 16 + b2 / 16) / 16 = b1 := by omega
    have e2 : (b1 % 4 * 16 + b2 / 16) % 16 * 16 + (b2 % 16 * 4 + b3 / 64) / 4 = b2 := by omega
    have e3 : (b2 % 16 * 4 + b3 / 64) % 4 * 64 + b3 % 64 = b3 := by omega
    simp only [b64encChars, b64decGroups,
      b64ValStd_b64CharStd (b1 / 4) (by omega),
      b64ValStd_b64CharStd (b1 % 4 * 16 + b2 / 16) (by omega),
      b64ValStd_b64CharStd (b2 % 16 * 4 + b3 / 64) (by omega),
      b64ValStd_b64CharStd (b3 % 64) (by omega)]
    simp [b64CharStd_ne_pad (b2 % 16 * 4 + b3 / 64) (by omega),
      b64CharStd_ne_pad (b3 % 64) (by omega), ih, e1, e2, e3]

/-- Round trip: decoding an encoded byte list returns it exactly. -/
theorem b64decode_b64encode (bs : List Nat) (h : ∀ b ∈ bs, b < 256) :
    b64decodeChars (b64encChars b64CharStd bs) = some bs := by
  unfold b64decodeChars
  rw [b64enc_filter bs h, b64dec_enc bs h]

/-- URL-safe base64 without padding (`b64url` in crypto.py: urlsafe encode
then `rstrip(b"=")`; padding only occurs at the end, so filtering equals
stripping). -/
def b64urlChars (bs : List Nat) : List Char :=
  (b64encChars b64CharUrl bs).filter (fun c => !(c == '='))

/-! ## 4. Models of Python builtins used by the code

Fallible Python operations return `Except PyExc`; the constructors name the
exception classes the code can raise or catch. NaCl's `BadSignatureError`
is its own constructor; `binascii.Error` and `nacl.exceptions.ValueError`
are subclasses of `ValueError` and are modeled as `valueError`.
`attributeError` models calling `.get` on a non-dict — an exception
`verify_passport`'s `except` clause does **not** catch.
-/

inductive PyExc where
  | keyError : PyExc
  | valueError : PyExc
  | typeError : PyExc
  | badSignature : PyExc
  | attributeError : PyExc
deriving DecidableEq

/-- First binding of a key in a dict (Python dicts have unique keys). -/
def dictGet : PyDict → String → Option PyVal
  | .nil, _ => Option.none
  | .cons k v tl, key => if k = key then some v else dictGet tl key

/-- Python `obj.get(key, default)`: dictionary lookup with a default;
`AttributeError` on anything that is not a dict. -/
def py_get (v : PyVal) (key : String) (default : PyVal) : Except PyExc PyVal :=
  match v with
  | .dict d => .ok ((dictGet d key).getD default)
  | _ => .error .attributeError

/-- Python `obj[key]` with a string key: `KeyError` when absent,
`TypeError` on non-dict values. -/
def py_item (v : PyVal) (key : String) : Except PyExc PyVal :=
  match v with
  | .dict d =>
    match dictGet d key with
    | some x => .ok x
    | Option.none => .error .keyError
  | _ => .error .typeError

/-- Python truthiness of JSON-like values. -/
def pyTruthy : PyVal → Bool
  | .str s => !(s == "")
  | .int n => !(n == 0)
  | .bool b => b
  | .none => false
  | .list .nil => false
  | .list (.cons _ _) => true
  | .dict .nil => false
  | .dict (.cons _ _ _) => true

/-- Value of a nonempty all-digit character list. -/
def digitsToNat (l : List Char) : Option Nat :=
  if l ≠ [] ∧ l.all Char.isDigit then
    some (l.foldl (fun a c => a * 10 + (c.toNat - 48)) 0)
  else Option.none

/-- Python `int(str)`: strip whitespace, optional sign, decimal digits
(PEP 515 underscores are not modeled; no caller uses them). -/
def parseIntStr (s : String) : Option Int :=
  let t := ((s.data.dropWhile Char.isWhitespace).reverse.dropWhile Char.isWhitespace).reverse
  match t with
  | '+' :: rest => (digitsToNat rest).map Int.ofNat
  | '-' :: rest => (digitsToNat rest).map (fun n => -(Int.ofNat n))
  | rest => (digitsToNat rest).map Int.ofNat

/-- Python `int(x)` on JSON-like values: ints pass through, bools coerce,
numeric strings parse (`ValueError` otherwise), everything else is a
`TypeError`. Floats do not occur in the embedded code paths. -/
def py_int : PyVal → Except PyExc Int
  | .int n => .ok n
  | .bool b => .ok (if b then 1 else 0)
  | .str s =>
    match parseIntStr s with
    | some n => .ok n
    | Option.none => .error .valueError
  | _ => .error .typeError

/-- Python `hmac.compare_digest(a, b)` where `a` is a computed hex digest
string: constant-time equality on strings, `TypeError` when `b` is not a
string. -/
def compare_digest (a : String) (b : PyVal) : Except PyExc Bool :=
  match b with
  | .str t => .ok (a == t)
  | _ => .error .typeError

/-- Python `base64.b64decode(v)`: decodes strings (`binascii.Error`, a
`ValueError`, on bad padding), `TypeError` on non-string input. -/
def py_b64decode (v : PyVal) : Except PyExc (List Nat) :=
  match v with
  | .str s =>
    match b64decodeChars s.data with
    | some bs => .ok bs
    | Option.none => .error .valueError
  | _ => .error .typeError

/-- A deterministic signature scheme with fixed Ed25519 wire sizes
(64-byte signatures, 32-byte verifying keys) and verification correct on
honestly produced signatures. The passport and token engines are stated
over any such scheme; `macSig` below is the concrete instance used for
closed evaluations. Unforgeability is not assumed — no claim needs it. -/
structure SigScheme where
  sign : List Nat → List Nat → List Nat
  vkOf : List Nat → List Nat
  sverify : List Nat → List Nat → List Nat → Bool
  sign_length : ∀ msg sk, (sign msg sk).length = 64
  sign_bytes_lt : ∀ msg sk, ∀ b ∈ sign msg sk, b < 256
  vk_length : ∀ sk, (vkOf sk).length = 32
  vk_bytes_lt : ∀ sk, ∀ b ∈ vkOf sk, b < 256
  sign_verify : ∀ msg sk, sverify msg (sign msg sk) (vkOf sk) = true

/-- NaCl `VerifyKey(bytes)`: checks the 32-byte key size
(`nacl.exceptions.ValueError` otherwise). -/
def nacl_VerifyKey (bs : List Nat) : Except PyExc (List Nat) :=
  if bs.length = 32 then .ok bs else .error .valueError

/-- NaCl `vk.verify(msg, sig)`: checks the 64-byte signature size
(`ValueError`), then signature validity (`BadSignatureError`). -/
def nacl_verify (S : SigScheme) (vk msg sig : List Nat) : Except PyExc Unit :=
  if sig.length = 64 then
    if S.sverify msg sig vk then .ok () else .error .badSignature
  else .error .valueError

/-- Concrete deterministic scheme standing in for Ed25519 in closed
evaluations: the verifying key is an HMAC of the secret key and a
signature is the doubled HMAC-SHA256 tag of the message under the
verifying key. It satisfies every `SigScheme` obligation. -/
def macSig : SigScheme where
  sign msg sk := hmacSha256 (hmacSha256 [0] sk) msg ++ hmacSha256 (hmacSha256 [0] sk) msg
  vkOf sk := hmacSha256 [0] sk
  sverify msg sig vk := sig == hmacSha256 vk msg ++ hmacSha256 vk msg
  sign_length := fun msg sk => by
    simp [List.length_append, hmacSha256_length]
  sign_bytes_lt := fun msg sk b hb => by
    rcases List.mem_append.mp hb with h | h <;> exact hmacSha256_bytes_lt _ _ _ h
  vk_length := fun sk => hmacSha256_length _ _
  vk_bytes_lt := fun sk b hb => hmacSha256_bytes_lt _ _ _ hb
  sign_verify := fun msg sk => by simp

/-! ## 5. src/ismx/passport.py

`COMMIT_KEY` (module global from the environment) and the NaCl signing key
are parameters; the two `int(time.time())` calls inside `issue_passport`
are the explicit clock samples `t1` (line 106, for `exp`) and `t2`
(line 117, for `issued_at`). The nonce (`secrets.token_hex(16)`) is a
parameter as well.
-/

/-- passport.py `hmac_commit`: HMAC-SHA256 hex digest of the canonical JSON
of the payload under `COMMIT_KEY`. -/
def hmac_commit (key : List Nat) (payload : PyVal) : String :=
  hexdigest (hmacSha256 key (jsonBytes payload))

/-- passport.py `pack_message`: canonical JSON bytes of the five signed
fields. `commitment`, `ttl_s` and `nonce` are arbitrary values because
`verify_passport` passes whatever the passport dictionary carries. -/
def pack_message (agent_id session_id : String) (commitment ttl_s nonce : PyVal) : List Nat :=
  jsonBytes (.dict (.cons "agent_id" (.str agent_id) (.cons "session_id" (.str session_id)
    (.cons "commitment" commitment (.cons "ttl_s" ttl_s (.cons "nonce" nonce .nil))))))

/-- passport.py `issue_passport` (lines 78-118): sign the message packed
with the original `ttl_s`, set `exp = t1 + ttl_s` from the first clock
sample and `issued_at = t2` from the second. -/
def issue_passport (S : SigScheme) (key : List Nat) (agent_id session_id : String)
    (redacted_metrics : PyVal) (ttl_s : Int) (nonce : String) (sk : List Nat)
    (t1 t2 : Int) : PyVal :=
  let commitment := hmac_commit key redacted_metrics
  let msg := pack_message agent_id session_id (.str commitment) (.int ttl_s) (.str nonce)
  let sig := S.sign msg sk
  .dict (.cons "agent_id" (.str agent_id) (.cons "session_id" (.str session_id)
    (.cons "commitment" (.str commitment) (.cons "nonce" (.str nonce)
    (.cons "sig_b64" (.str (b64encode sig)) (.cons "vk_b64" (.str (b64encode (S.vkOf sk)))
    (.cons "exp" (.int (t1 + ttl_s)) (.cons "ttl_s_original" (.int ttl_s)
    (.cons "issued_at" (.int t2) .nil)))))))))

/-- Body of passport.py `verify_passport` (lines 139-173), before the
`except` clause: each check in source order, propagating exceptions. -/
def verify_passport_body (S : SigScheme) (key : List Nat) (passport : PyVal)
    (agent_id session_id : String) (redacted_metrics : PyVal) (now : Int) :
    Except PyExc Bool := do
  let expv ← py_get passport "exp" (.int 0)
  let expi ← py_int expv
  if now > expi then return false
  else
  let actual ← py_get passport "commitment" (.str "")
  let commitOk ← compare_digest (hmac_commit key redacted_metrics) actual
  if !commitOk then return false
  else
  let aid ← py_get passport "agent_id" .none
  if !(aid == PyVal.str agent_id) then return false
  else
  let sid ← py_get passport "session_id" .none
  if !(sid == PyVal.str session_id) then return false
  else
  let ttl ← py_get passport "ttl_s_original" (.int 60)
  let commitv ← py_item passport "commitment"
  let noncev ← py_item passport "nonce"
  let msg := pack_message agent_id session_id commitv ttl noncev
  let vkb ← py_item passport "vk_b64"
  let vkBytes ← py_b64decode vkb
  let vk ← nacl_VerifyKey vkBytes
  let sigb ← py_item passport "sig_b64"
  let sig ← py_b64decode sigb
  let _ ← nacl_verify S vk msg sig
  return true

/-- The exception classes `verify_passport` catches:
`(BadSignatureError, KeyError, ValueError, TypeError)` (line 175). -/
def pyCaught : PyExc → Bool
  | .badSignature => true
  | .keyError => true
  | .valueError => true
  | .typeError => true
  | .attributeError => false

/-- passport.py `verify_passport`: the body under its `try/except`, which
turns the four caught exception classes into `False`; any other exception
would propagate to the caller. -/
def verify_passport (S : SigScheme) (key : List Nat) (passport : PyVal)
    (agent_id session_id : String) (redacted_metrics : PyVal) (now : Int) :
    Except PyExc Bool :=
  match verify_passport_body S key passport agent_id session_id redacted_metrics now with
  | .ok b => .ok b
  | .error e => if pyCaught e then .ok false else .error e

/-- passport.py `verify_passport_commitment_only`: the commitment check
alone, under a catch-all `except Exception`. -/
def verify_passport_commitment_only (key : List Nat) (passport redacted_metrics : PyVal) :
    Bool :=
  match (do
      let actual ← py_get passport "commitment" (.str "")
      compare_digest (hmac_commit key redacted_metrics) actual :
      Except PyExc Bool) with
  | .ok b => b
  | .error _ => false

/-- passport.py `passport_is_expired`: expiry check catching only
`(ValueError, TypeError)` — an `AttributeError` propagates. -/
def passport_is_expired (passport : PyVal) (now : Int) : Except PyExc Bool :=
  match (do
      let v ← py_get passport "exp" (.int 0)
      let e ← py_int v
      pure (decide (now > e)) : Except PyExc Bool) with
  | .ok b => .ok b
  | .error .valueError => .ok true
  | .error .typeError => .ok true
  | .error e => .error e

/-- NaCl `SigningKey(bytes)`: checks the 32-byte seed size. -/
def nacl_SigningKey (bs : List Nat) : Except PyExc (List Nat) :=
  if bs.length = 32 then .ok bs else .error .valueError

/-- Truthiness of an optional environment string (`not sk_b64` in Python:
unset or empty both count as missing). -/
def envFalsy : Option String → Bool
  | Option.none => true
  | some s => s == ""

/-- passport.py `_load_keys` (lines 27-55): with either key variable
missing, development mode generates an **ephemeral** key pair (nothing is
persisted) while any other mode raises a `ValueError`; with both present
they are base64-decoded and size-checked, any failure re-raised as a
`ValueError` with a "Failed to load" message. -/
def load_keys (S : SigScheme) (sk_b64 vk_b64 : Option String) (env_mode : String)
    (freshSk : List Nat) : Except String (List Nat × List Nat) :=
  if envFalsy sk_b64 || envFalsy vk_b64 then
    if env_mode == "development" then .ok (freshSk, S.vkOf freshSk)
    else .error "ED25519_SK_B64 and ED25519_VK_B64 environment variables must be set in production mode"
  else
    match (do
        let skb ← py_b64decode (.str (sk_b64.getD ""))
        let sk ← nacl_SigningKey skb
        let vkb ← py_b64decode (.str (vk_b64.getD ""))
        let vk ← nacl_VerifyKey vkb
        pure (sk, vk) : Except PyExc (List Nat × List Nat)) with
    | .ok kp => .ok kp
    | .error _ => .error "Failed to load Ed25519 keys"

theorem pyBeq_str_str (x y : String) : (PyVal.str x == PyVal.str y) = (x == y) := rfl

/-- Decoding the encoding of well-bounded bytes succeeds. -/
theorem py_b64decode_encode (bs : List Nat) (h : ∀ b ∈ bs, b < 256) :
    py_b64decode (.str (b64encode bs)) = .ok bs := by
  show (match b64decodeChars (b64encChars b64CharStd bs) with
    | some x => Except.ok x
    | Option.none => Except.error PyExc.valueError) = Except.ok bs
  rw [b64decode_b64encode bs h]

theorem ebind_ok {α β : Type} (x : α) (f : α → Except PyExc β) :
    (Except.ok x >>= f) = f x := rfl

theorem ebind_err {α β : Type} (e : PyExc) (f : α → Except PyExc β) :
    ((Except.error e : Except PyExc α) >>= f) = Except.error e := rfl

theorem epure {α : Type} (x : α) : (pure x : Except PyExc α) = Except.ok x := rfl

theorem emap_ok {α β : Type} (f : α → β) (x : α) :
    (f <$> (Except.ok x : Except PyExc α)) = Except.ok (f x) := rfl

theorem emap_err {α β : Type} (f : α → β) (e : PyExc) :
    (f <$> (Except.error e : Except PyExc α)) = Except.error e := rfl

set_option maxHeartbeats 2000000 in
/-- Characterization of `verify_passport` on a passport produced by
`issue_passport`: the outcome is exactly the conjunction of the expiry
check (`now ≤ t1 + ttl`, the stored `exp`), commitment equality, and the
two identifier checks; the signature always verifies on an honestly issued
passport once the identifiers match. -/
theorem verify_issued_eq (S : SigScheme) (key : List Nat) (a s : String) (m : PyVal)
    (ttl : Int) (nonce : String) (sk : List Nat) (t1 t2 : Int)
    (a2 s2 : String) (m2 : PyVal) (now : Int) :
    verify_passport S key (issue_passport S key a s m ttl nonce sk t1 t2) a2 s2 m2 now =
      .ok ((!decide (now > t1 + ttl)) && (hmac_commit key m2 == hmac_commit key m) &&
        (a == a2) && (s == s2)) := by
  have hexp : py_get (issue_passport S key a s m ttl nonce sk t1 t2) "exp" (.int 0) =
      .ok (.int (t1 + ttl)) := rfl
  have hcom : py_get (issue_passport S key a s m ttl nonce sk t1 t2) "commitment" (.str "") =
      .ok (.str (hmac_commit key m)) := rfl
  have haid : py_get (issue_passport S key a s m ttl nonce sk t1 t2) "agent_id" .none =
      .ok (.str a) := rfl
  have hsid : py_get (issue_passport S key a s m ttl nonce sk t1 t2) "session_id" .none =
      .ok (.str s) := rfl
  have httl : py_get (issue_passport S key a s m ttl nonce sk t1 t2) "ttl_s_original" (.int 60) =
      .ok (.int ttl) := rfl
  have hcomi : py_item (issue_passport S key a s m ttl nonce sk t1 t2) "commitment" =
      .ok (.str (hmac_commit key m)) := rfl
  have hnon : py_item (issue_passport S key a s m ttl nonce sk t1 t2) "nonce" =
      .ok (.str nonce) := rfl
  have hvkb : py_item (issue_passport S key a s m ttl nonce sk t1 t2) "vk_b64" =
      .ok (.str (b64encode (S.vkOf sk))) := rfl
  have hsigb : py_item (issue_passport S key a s m ttl nonce sk t1 t2) "sig_b64" =
      .ok (.str (b64encode (S.sign (pack_message a s (.str (hmac_commit key m)) (.int ttl)
        (.str nonce)) sk))) := rfl
  have hvkd : py_b64decode (.str (b64encode (S.vkOf sk))) = .ok (S.vkOf sk) :=
    py_b64decode_encode _ (S.vk_bytes_lt sk)
  have hsigd : py_b64decode (.str (b64encode (S.sign (pack_message a s
      (.str (hmac_commit key m)) (.int ttl) (.str nonce)) sk))) =
      .ok (S.sign (pack_message a s (.str (hmac_commit key m)) (.int ttl) (.str nonce)) sk) :=
    py_b64decode_encode _ (S.sign_bytes_lt _ sk)
  have hvk2 : nacl_VerifyKey (S.vkOf sk) = .ok (S.vkOf sk) := by
    simp [nacl_VerifyKey, S.vk_length sk]
  have hver : nacl_verify S (S.vkOf sk) (pack_message a s (.str (hmac_commit key m)) (.int ttl)
      (.str nonce)) (S.sign (pack_message a s (.str (hmac_commit key m)) (.int ttl)
      (.str nonce)) sk) = .ok () := by
    simp [nacl_verify, S.sign_length, S.sign_verify]
  rw [verify_passport, verify_passport_body, hexp]
  rw [hcom, haid, hsid, httl, hcomi, hnon, hvkb, hsigb]
  simp only [ebind_ok, py_int]
  by_cases h1 : t1 + ttl < now
  · have h1d : decide (now > t1 + ttl) = true := by simp [h1]
    simp [h1, h1d, epure]
  · have h1d : decide (now > t1 + ttl) = false := by simp [h1]
    rw [if_neg h1]
    simp only [h1d, Bool.not_false, Bool.true_and, ebind_ok, compare_digest]
    by_cases h2 : hmac_commit key m2 = hmac_commit key m
    · rw [h2]
      by_cases h3 : a = a2
      · subst h3
        by_cases h4 : s = s2
        · subst h4
          simp [ebind_ok, epure, hvkd, hvk2, hsigd, hver]
        · have hb : (s == s2) = false := by simp [h4]
          simp [pyBeq_str_str, hb, epure]
      · have hb : (a == a2) = false := by simp [h3]
        simp [pyBeq_str_str, hb, epure]
    · have hb : (hmac_commit key m2 == hmac_commit key m) = false := by simp [h2]
      simp [hb, epure]

/-! ## 6. src/tokens.py — capability leases

The module globals `_USED_LEASES` (a set) and `_ACTIVE_LEASES` (a dict
keyed by lease id) become an explicit `LeaseState`. `secrets.token_hex(16)`
and the two `int(time.time())` samples inside `issue_capability_lease`
are parameters. The sequential embedding serializes the lock-protected
critical sections.
-/

structure LeaseState where
  used : List PyVal
  active : List (String × PyVal)

/-- Membership in the used-set (Python `lease_id in _USED_LEASES`). -/
def pyMem (v : PyVal) (l : List PyVal) : Bool := l.contains v

/-- Python dict assignment on a string-keyed store: replace or append. -/
def storePut : List (String × PyVal) → String → PyVal → List (String × PyVal)
  | [], k, v => [(k, v)]
  | (k0, v0) :: tl, k, v => if k0 = k then (k, v) :: tl else (k0, v0) :: storePut tl k v

/-- Python `del` on a string-keyed store (no-op when absent; callers guard). -/
def storeDel : List (String × PyVal) → String → List (String × PyVal)
  | [], _ => []
  | (k0, v0) :: tl, k => if k0 = k then tl else (k0, v0) :: storeDel tl k

/-- Assignment `d["used"] = True` on a lease record; every value in the
active store is a dict built by `issue_capability_lease`. -/
def dictPut : PyDict → String → PyVal → PyDict
  | .nil, k, v => .cons k v .nil
  | .cons k0 v0 tl, k, v => if k0 = k then .cons k v tl else .cons k0 v0 (dictPut tl k v)

/-- `_ACTIVE_LEASES[lease_id]["used"] = True` guarded by
`lease_id in _ACTIVE_LEASES`; a non-string id is never a store key. -/
def activeMarkUsed (l : List (String × PyVal)) (lease_id : PyVal) : List (String × PyVal) :=
  match lease_id with
  | .str k =>
    match l.lookup k with
    | some (.dict d) => storePut l k (.dict (dictPut d "used" (.bool true)))
    | _ => l
  | _ => l

/-- tokens.py `issue_capability_lease` (lines 18-53): build the lease dict
(`exp` from the first clock sample, `issued_at` from the second) and
register it in the active store under its id. -/
def issue_capability_lease (user_id action_id scope : String) (ttl_s : Int)
    (lease_id : String) (t1 t2 : Int) (st : LeaseState) : PyVal × LeaseState :=
  let lease := PyVal.dict (.cons "lease_id" (.str lease_id) (.cons "user_id" (.str user_id)
    (.cons "action_id" (.str action_id) (.cons "scope" (.str scope)
    (.cons "exp" (.int (t1 + ttl_s)) (.cons "issued_at" (.int t2)
    (.cons "used" (.bool false) .nil)))))))
  (lease, ⟨st.used, storePut st.active lease_id lease⟩)

/-- tokens.py `lease_valid` (lines 56-99): falsy id, used-set hit, expiry,
and scope mismatch each return `False` leaving the state unchanged; with
`consume=True` the surviving path re-checks the used-set, inserts the id,
and marks the stored lease used. An exception (`int()` on a malformed
`exp`) propagates before any mutation. -/
def lease_valid (lease : PyVal) (needed_scope : String) (consume : Bool) (now : Int)
    (st : LeaseState) : Except PyExc (Bool × LeaseState) := do
  let lease_id ← py_get lease "lease_id" .none
  if !pyTruthy lease_id then return (false, st)
  else
  if pyMem lease_id st.used then return (false, st)
  else
  let expv ← py_get lease "exp" (.int 0)
  let expi ← py_int expv
  if now > expi then return (false, st)
  else
  let scopev ← py_get lease "scope" .none
  if !(scopev == PyVal.str needed_scope) then return (false, st)
  else
  if consume then
    if pyMem lease_id st.used then return (false, st)
    else return (true, ⟨lease_id :: st.used, activeMarkUsed st.active lease_id⟩)
  else return (true, st)

/-- tokens.py `revoke_lease` (lines 102-119): drop from the active store,
add to the used-set, return `True` unconditionally. -/
def revoke_lease (lease_id : String) (st : LeaseState) : Bool × LeaseState :=
  (true, ⟨PyVal.str lease_id :: st.used, storeDel st.active lease_id⟩)

/-- Integer reading of a stored `exp` for the sweep comparison
(`lease.get("exp", 0) < now`); active-store values always carry ints. -/
def leaseExpVal (v : PyVal) : Int :=
  match v with
  | .dict d =>
    match dictGet d "exp" with
    | some (.int n) => n
    | some (.bool b) => if b then 1 else 0
    | _ => 0
  | _ => 0

/-- tokens.py `cleanup_expired_leases` (lines 136-159): delete active
entries with `exp < now`, return how many; the used-set is untouched. -/
def cleanup_expired_leases (now : Int) (st : LeaseState) : Nat × LeaseState :=
  let keep := st.active.filter (fun kv => !(decide (leaseExpVal kv.2 < now)))
  (st.active.length - keep.length, ⟨st.used, keep⟩)

/-- tokens.py `get_lease_status`. -/
def get_lease_status (lease_id : String) (st : LeaseState) : Option PyVal :=
  st.active.lookup lease_id

/-- tokens.py `get_active_lease_count`. -/
def get_active_lease_count (st : LeaseState) : Nat := st.active.length

/-- tokens.py `get_used_lease_count`. -/
def get_used_lease_count (st : LeaseState) : Nat := st.used.length

/-- The operations tokens.py exposes over the shared stores. -/
inductive LeaseOp where
  | issue : String → String → String → Int → String → Int → Int → LeaseOp
  | validate : PyVal → String → Bool → Int → LeaseOp
  | revoke : String → LeaseOp
  | cleanup : Int → LeaseOp

/-- One operation against the stores; a raising `lease_valid` leaves them
unchanged (its only mutation is the final consume step). -/
def leaseStep (st : LeaseState) : LeaseOp → LeaseState
  | .issue u a s ttl lid t1 t2 => (issue_capability_lease u a s ttl lid t1 t2 st).2
  | .validate l s c now =>
    match lease_valid l s c now st with
    | .ok (_, st2) => st2
    | .error _ => st
  | .revoke lid => (revoke_lease lid st).2
  | .cleanup now => (cleanup_expired_leases now st).2

/-- Run a sequence of lease operations. -/
def leaseRun (st : LeaseState) (ops : List LeaseOp) : LeaseState := ops.foldl leaseStep st

theorem pyVal_decide_eq (v w : PyVal) : decide (v = w) = (v == w) := by
  by_cases h : v = w
  · simp [h]
  · simp [h, beq_eq_false_iff_ne]

theorem pyMem_cons (v w : PyVal) (l : List PyVal) :
    pyMem v (w :: l) = ((v == w) || pyMem v l) := by
  simp [pyMem, List.contains_cons, pyVal_decide_eq]

/-- Every successful `lease_valid` leaves the state unchanged or conses the
carried lease id onto the used-set (and marks the active entry). -/
theorem lease_valid_state (l : PyVal) (s : String) (c : Bool) (now : Int) (st : LeaseState)
    (b : Bool) (st2 : LeaseState) (h : lease_valid l s c now st = .ok (b, st2)) :
    (st2 = st ∧ (b = true → c = false)) ∨
      (b = true ∧ c = true ∧ ∃ lid, py_get l "lease_id" PyVal.none = .ok lid ∧
        st2 = ⟨lid :: st.used, activeMarkUsed st.active lid⟩) := by
  rw [lease_valid] at h
  rcases hg : py_get l "lease_id" PyVal.none with e | lid
  · simp only [hg, ebind_err] at h
    simp at h
  · simp only [hg, ebind_ok] at h
    cases hb : pyTruthy lid
    · rw [hb] at h
      rw [if_pos (by simp)] at h
      left
      simp only [epure, Except.ok.injEq, Prod.mk.injEq] at h
      exact ⟨h.2.symm, fun hb2 => by simp [← h.1] at hb2⟩
    · rw [hb] at h
      rw [if_neg (by simp)] at h
      cases hu : pyMem lid st.used
      · rw [hu] at h
        rw [if_neg (by simp)] at h
        rcases he : py_get l "exp" (PyVal.int 0) with e2 | ev
        · simp only [he, ebind_err] at h
          simp at h
        · simp only [he, ebind_ok] at h
          rcases hi : py_int ev with e3 | n
          · simp only [hi, ebind_err] at h
            simp at h
          · simp only [hi, ebind_ok] at h
            by_cases hn : now > n
            · rw [if_pos hn] at h
              left
              simp only [epure, Except.ok.injEq, Prod.mk.injEq] at h
              exact ⟨h.2.symm, fun hb2 => by simp [← h.1] at hb2⟩
            · rw [if_neg hn] at h
              rcases hs : py_get l "scope" PyVal.none with e4 | sv
              · simp only [hs, ebind_err] at h
                simp at h
              · simp only [hs, ebind_ok] at h
                cases hsc : (sv == PyVal.str s)
                · rw [hsc] at h
                  rw [if_pos (by simp)] at h
                  left
                  simp only [epure, Except.ok.injEq, Prod.mk.injEq] at h
                  exact ⟨h.2.symm, fun hb2 => by simp [← h.1] at hb2⟩
                · rw [hsc] at h
                  rw [if_neg (by simp)] at h
                  cases c
                  · rw [if_neg (by simp)] at h
                    left
                    simp only [epure, Except.ok.injEq, Prod.mk.injEq] at h
                    exact ⟨h.2.symm, fun hb2 => rfl⟩
                  · rw [if_pos rfl] at h
                    rw [if_neg (by simp)] at h
                    right
                    simp only [epure, Except.ok.injEq, Prod.mk.injEq] at h
                    exact ⟨h.1.symm, rfl, lid, rfl, h.2.symm⟩
      · rw [hu] at h
        rw [if_pos rfl] at h
        left
        simp only [epure, Except.ok.injEq, Prod.mk.injEq] at h
        exact ⟨h.2.symm, fun hb2 => by simp [← h.1] at hb2⟩

/-- `lease_valid` never removes an entry from the used-set. -/
theorem lease_valid_used_mono (l : PyVal) (s : String) (c : Bool) (now : Int) (st : LeaseState)
    (b : Bool) (st2 : LeaseState) (h : lease_valid l s c now st = .ok (b, st2)) (v : PyVal)
    (hv : pyMem v st.used = true) : pyMem v st2.used = true := by
  rcases lease_valid_state l s c now st b st2 h with ⟨heq, _⟩ | ⟨_, _, lid, _, heq⟩
  · rw [heq]
    exact hv
  · rw [heq]
    simp [pyMem_cons, hv]

/-- No lease operation removes an entry from the used-set. -/
theorem leaseStep_used_mono (st : LeaseState) (op : LeaseOp) (v : PyVal)
    (hv : pyMem v st.used = true) : pyMem v (leaseStep st op).used = true := by
  cases op with
  | issue u a s ttl lid t1 t2 => exact hv
  | validate l s c now =>
    simp only [leaseStep]
    rcases hLV : lease_valid l s c now st with e | p
    · exact hv
    · rcases p with ⟨b, st2⟩
      exact lease_valid_used_mono l s c now st b st2 hLV v hv
  | revoke lid =>
    simp only [leaseStep, revoke_lease]
    simp [pyMem_cons, hv]
  | cleanup now => exact hv

/-- Used-set entries survive any sequence of lease operations. -/
theorem leaseRun_used_mono (ops : List LeaseOp) : ∀ (st : LeaseState) (v : PyVal),
    pyMem v st.used = true → pyMem v (leaseRun st ops).used = true := by
  induction ops with
  | nil => exact fun st v hv => hv
  | cons op tl ih =>
    intro st v hv
    exact ih (leaseStep st op) v (leaseStep_used_mono st op v hv)

/-- A validation whose carried id is already in the used-set returns
`False` and leaves the state unchanged, whatever the scope or consume
flag. -/
theorem lease_valid_hit_used (l2 : PyVal) (s2 : String) (c : Bool) (now2 : Int)
    (st : LeaseState) (v : PyVal) (hg : py_get l2 "lease_id" PyVal.none = .ok v)
    (hv : pyMem v st.used = true) : lease_valid l2 s2 c now2 st = .ok (false, st) := by
  rw [lease_valid]
  simp only [hg, ebind_ok]
  cases hb : pyTruthy v
  · rw [if_pos (by simp)]
    rfl
  · rw [if_neg (by simp), hv, if_pos rfl]
    rfl

/-- A successful consuming validation puts the carried lease id into the
used-set of the resulting state. -/
theorem lease_valid_consume_mem (l : PyVal) (s : String) (now : Int) (st st2 : LeaseState)
    (h : lease_valid l s true now st = .ok (true, st2)) :
    ∃ lid, py_get l "lease_id" PyVal.none = .ok lid ∧ pyMem lid st2.used = true := by
  rcases lease_valid_state l s true now st true st2 h with ⟨_, himp⟩ | ⟨_, _, lid, hgl, heq⟩
  · cases himp rfl
  · refine ⟨lid, hgl, ?_⟩
    rw [heq]
    simp [pyMem_cons]

/-- On a freshly issued lease with a nonempty id not yet in the used-set
and not yet expired, validation with the wrong scope returns `False` and
leaves the state unchanged. -/
theorem lease_valid_issued_wrong_scope (u a sc : String) (ttl : Int) (lid : String)
    (t1 t2 : Int) (st0 st : LeaseState) (s2 : String) (c : Bool) (now : Int)
    (hlid : ¬lid = "") (hused : pyMem (.str lid) st.used = false)
    (hexp : ¬now > t1 + ttl) (hsc : ¬sc = s2) :
    lease_valid (issue_capability_lease u a sc ttl lid t1 t2 st0).1 s2 c now st =
      .ok (false, st) := by
  have hgl : py_get (issue_capability_lease u a sc ttl lid t1 t2 st0).1 "lease_id" PyVal.none =
      .ok (.str lid) := rfl
  have hge : py_get (issue_capability_lease u a sc ttl lid t1 t2 st0).1 "exp" (.int 0) =
      .ok (.int (t1 + ttl)) := rfl
  have hgs : py_get (issue_capability_lease u a sc ttl lid t1 t2 st0).1 "scope" PyVal.none =
      .ok (.str sc) := rfl
  have ht : pyTruthy (.str lid) = true := by simp [pyTruthy, hlid]
  rw [lease_valid]
  simp only [hgl, ebind_ok, ht, Bool.not_true]
  rw [if_neg (by simp), hused, if_neg (by simp)]
  simp only [hge, ebind_ok, py_int, ebind_ok]
  rw [if_neg hexp]
  simp only [hgs, ebind_ok, pyBeq_str_str]
  rw [if_pos (by simp [hsc])]
  rfl

/-- On a freshly issued lease with a nonempty id not yet in the used-set
and not yet expired, consuming validation with the right scope succeeds
and adds the id to the used-set. -/
theorem lease_valid_issued_consume (u a sc : String) (ttl : Int) (lid : String)
    (t1 t2 : Int) (st0 st : LeaseState) (now : Int)
    (hlid : ¬lid = "") (hused : pyMem (.str lid) st.used = false)
    (hexp : ¬now > t1 + ttl) :
    lease_valid (issue_capability_lease u a sc ttl lid t1 t2 st0).1 sc true now st =
      .ok (true, ⟨.str lid :: st.used, activeMarkUsed st.active (.str lid)⟩) := by
  have hgl : py_get (issue_capability_lease u a sc ttl lid t1 t2 st0).1 "lease_id" PyVal.none =
      .ok (.str lid) := rfl
  have hge : py_get (issue_capability_lease u a sc ttl lid t1 t2 st0).1 "exp" (.int 0) =
      .ok (.int (t1 + ttl)) := rfl
  have hgs : py_get (issue_capability_lease u a sc ttl lid t1 t2 st0).1 "scope" PyVal.none =
      .ok (.str sc) := rfl
  have ht : pyTruthy (.str lid) = true := by simp [pyTruthy, hlid]
  rw [lease_valid]
  simp only [hgl, ebind_ok, ht, Bool.not_true]
  rw [if_neg (by simp), hused, if_neg (by simp)]
  simp only [hge, ebind_ok, py_int, ebind_ok]
  rw [if_neg hexp]
  simp only [hgs, ebind_ok, pyBeq_str_str]
  rw [if_neg (by simp)]
  simp [epure]

/-! ## 7. src/authy_v4_open — compact tokens, storage, server verify

The SQLite revocations table becomes a list of revoked `jti` strings (its
primary key), the signing key file an `Option` byte list. Compact tokens
are modeled structurally as their decoded header/payload plus signature;
`verify_compact` checks the signature over the canonical signing input and
re-raises any failure as a `ValueError` string, as crypto.py does.
-/

/-- crypto.py `ensure_keypair` (lines 14-24): when the key file is absent a
fresh key is generated and written — with no environment-mode check and no
permission bits set; when present its 32 raw bytes become the signing key.
The second component of the result is the key file content afterwards. -/
def ensure_keypair (S : SigScheme) (keyFile : Option (List Nat)) (freshSk : List Nat) :
    Except PyExc ((List Nat × List Nat) × Option (List Nat)) :=
  match keyFile with
  | Option.none => .ok ((freshSk, S.vkOf freshSk), some freshSk)
  | some raw => do
    let sk ← nacl_SigningKey raw
    pure ((sk, S.vkOf sk), some raw)

/-- Startup key loading of authy_server.py (line 11): `ensure_keypair()` is
called unconditionally at import time. The environment mode is accepted
here only to record that it is never consulted on this path. -/
def authy_startup_keys (S : SigScheme) (_env_mode : String) (keyFile : Option (List Nat))
    (freshSk : List Nat) : Except PyExc ((List Nat × List Nat) × Option (List Nat)) :=
  ensure_keypair S keyFile freshSk

/-- Python `str.lower()` (ASCII; the secrets involved are ASCII). -/
def strLower (s : String) : String := String.mk (s.data.map Char.toLower)

/-- Python `str.strip(c)`: drop the character from both ends. -/
def stripEnds (c : Char) (l : List Char) : List Char :=
  ((l.dropWhile (fun x => x == c)).reverse.dropWhile (fun x => x == c)).reverse

/-- Membership in `'0123456789abcdef'`. -/
def isHexLowerChar (c : Char) : Bool :=
  (decide (48 ≤ c.toNat) && decide (c.toNat ≤ 57)) ||
    (decide (97 ≤ c.toNat) && decide (c.toNat ≤ 102))

/-- Value of a hex digit (either case), as `bytes.fromhex` accepts. -/
def hexVal (c : Char) : Option Nat :=
  if 48 ≤ c.toNat ∧ c.toNat ≤ 57 then some (c.toNat - 48)
  else if 97 ≤ c.toNat ∧ c.toNat ≤ 102 then some (c.toNat - 87)
  else if 65 ≤ c.toNat ∧ c.toNat ≤ 70 then some (c.toNat - 55)
  else Option.none

/-- Pairs of hex digits to bytes; `none` on odd length or a non-hex digit. -/
def fromhexPairs : List Char → Option (List Nat)
  | [] => some []
  | c1 :: c2 :: rest =>
    match hexVal c1, hexVal c2, fromhexPairs rest with
    | some x, some y, some tl => some ((x * 16 + y) :: tl)
    | _, _, _ => Option.none
  | _ => Option.none

/-- Python `bytes.fromhex`: spaces between byte pairs are ignored, any
other irregularity raises a `ValueError`. -/
def py_fromhex (s : String) : Except PyExc (List Nat) :=
  match fromhexPairs (s.data.filter (fun c => !(c == ' '))) with
  | some bs => .ok bs
  | Option.none => .error .valueError

/-- The hex-likeness heuristic of storage.py line 46, verbatim: every
character of `METRICS_SECRET.lower().strip('x')` lies in
`'0123456789abcdef'`, and `METRICS_SECRET.replace("x","")` (lowercase `x`
deleted everywhere) has length at least 32. -/
def metricsHexCond (secret : String) : Bool :=
  (stripEnds 'x' (strLower secret).data).all isHexLowerChar &&
    decide ((secret.data.filter (fun c => !(c == 'x'))).length ≥ 32)

/-- storage.py `hmac_metrics` (lines 43-48): derive the HMAC key —
`bytes.fromhex(METRICS_SECRET)` when the heuristic holds (which can raise
`ValueError`), else the raw UTF-8 bytes — and return the HMAC-SHA256 hex
digest of the canonical JSON payload. -/
def hmac_metrics (METRICS_SECRET : String) (payload : PyVal) : Except PyExc String := do
  let key ← if metricsHexCond METRICS_SECRET then py_fromhex METRICS_SECRET
    else pure (utf8Encode METRICS_SECRET)
  pure (hexdigest (hmacSha256 key (jsonBytes payload)))

/-- A compact token, structurally: the header and payload that its first
two base64url segments encode, and the signature bytes of its third.
Segment decoding and `json.loads` are exact inverses of the canonical
encoding on every token the server mints, so they are not re-modeled. -/
structure TokenT where
  header : PyVal
  payload : PyVal
  sig : List Nat

/-- crypto.py signing input: `b64url(header_json) + "." + b64url(payload_json)`
as ASCII bytes. -/
def signing_input (header payload : PyVal) : List Nat :=
  (b64urlChars (jsonBytes header)).map Char.toNat ++
    46 :: (b64urlChars (jsonBytes payload)).map Char.toNat

/-- crypto.py `sign_compact`: Ed25519 signature over the signing input. -/
def sign_compact (S : SigScheme) (header payload : PyVal) (sk : List Nat) : TokenT :=
  ⟨header, payload, S.sign (signing_input header payload) sk⟩

/-- crypto.py `verify_compact` (lines 35-49): verify the signature over the
signing input and return the decoded header and payload; every failure is
re-raised as a `ValueError` whose text starts with "verification failed". -/
def verify_compact (S : SigScheme) (t : TokenT) (vk : List Nat) :
    Except String (PyVal × PyVal) :=
  if S.sverify (signing_input t.header t.payload) t.sig vk then .ok (t.header, t.payload)
  else .error "verification failed: bad signature"

/-- storage.py `is_revoked` (lines 59-61): single-key lookup in the
revocations table. -/
def is_revoked (jti : String) (revocations : List String) : Bool := revocations.contains jti

/-- storage.py `revoke_jti` (lines 63-66): `INSERT OR REPLACE` keyed by
`jti`. -/
def revoke_jti (jti : String) (revocations : List String) : List String :=
  if revocations.contains jti then revocations else jti :: revocations

/-- A sequence of further revocations (the only server operation that
writes the revocations table). -/
def revoke_many (revocations : List String) (js : List String) : List String :=
  js.foldl (fun r j => revoke_jti j r) revocations

/-- The revocation check the `/verify` endpoint performs on the payload
value (a SQL parameter; only strings are ever stored as keys). -/
def is_revoked_val (jtiv : PyVal) (revocations : List String) : Bool :=
  match jtiv with
  | .str j => is_revoked j revocations
  | _ => false

/-- Python `payload.get("exp", 0) < now` (authy_server.py line 109):
`TypeError` on a non-numeric claim. -/
def pyLtInt (v : PyVal) (b : Int) : Except PyExc Bool :=
  match v with
  | .int n => .ok (decide (n < b))
  | .bool bo => .ok (decide ((if bo then (1 : Int) else 0) < b))
  | _ => .error .typeError

/-- The `VerifyResp` pydantic model: all optional fields default to None. -/
structure VerifyResp where
  valid : Bool
  sub : PyVal := PyVal.none
  scope : PyVal := PyVal.none
  org_id : PyVal := PyVal.none
  exp : PyVal := PyVal.none
  kid : PyVal := PyVal.none
  jti : PyVal := PyVal.none
  reason : Option String := Option.none

/-- The checks authy_server.py `/verify` performs after `verify_compact`
succeeds (lines 108-126): expiry, presence of `jti`, the revocation
ledger, and only then a `valid=True` response echoing the payload. -/
def authy_verify_payload (revocations : List String) (now : Int) (payload : PyVal) :
    Except PyExc VerifyResp := do
  let expv ← py_get payload "exp" (.int 0)
  let isExpired ← pyLtInt expv now
  if isExpired then return { valid := false, reason := some "expired" }
  else
  let jtiv ← py_get payload "jti" .none
  if !pyTruthy jtiv then return { valid := false, reason := some "missing jti" }
  else
  if is_revoked_val jtiv revocations then return { valid := false, reason := some "revoked" }
  else
  let subv ← py_get payload "sub" .none
  let scopev ← py_get payload "scope" .none
  let orgv ← py_get payload "org_id" .none
  let expv2 ← py_get payload "exp" .none
  let kidv ← py_get payload "kid" .none
  return { valid := true, sub := subv, scope := scopev, org_id := orgv,
           exp := expv2, kid := kidv, jti := jtiv }

/-- authy_server.py `/verify` (lines 101-126): signature first — any
`verify_compact` failure is reported as `valid=False` with its message —
then the payload checks. -/
def authy_verify (S : SigScheme) (vk : List Nat) (t : TokenT) (revocations : List String)
    (now : Int) : Except PyExc VerifyResp :=
  match verify_compact S t vk with
  | .error msg => .ok { valid := false, reason := some msg }
  | .ok hp => authy_verify_payload revocations now hp.2

/-! ## 8. src/auth0_utils.py — the `_jwks` cache

`JWKS_CACHE = {"keys": None, "ts": 0, "ttl": 300}` becomes an explicit
record; the HTTP GET becomes a `FetchOutcome` parameter consulted only on
the slow path. The sequential embedding collapses the double-checked
locking (both checks read the same state here).
-/

structure JwksCache where
  keys : Option PyVal
  ts : Int
  ttl : Int

/-- Outcome of `httpx.get(...)` plus `raise_for_status`/`r.json()`:
a transport or HTTP-status error, or a parsed JSON body. -/
inductive FetchOutcome where
  | netError : FetchOutcome
  | response : PyVal → FetchOutcome

inductive JwksErr where
  | configError : JwksErr
  | httpError : JwksErr
  | malformed : JwksErr
deriving DecidableEq

/-- Validation in `_jwks`: `"keys" in jwks and isinstance(jwks["keys"], list)`. -/
def jwks_valid_structure (body : PyVal) : Bool :=
  match body with
  | .dict d =>
    match dictGet d "keys" with
    | some (.list _) => true
    | _ => false
  | _ => false

/-- Truthiness of `JWKS_CACHE["keys"]` (None, or a cached response dict). -/
def cacheTruthy (c : Option PyVal) : Bool :=
  match c with
  | some v => pyTruthy v
  | Option.none => false

/-- auth0_utils.py `_jwks` (lines 23-77): configured-domain check, fresh
fast path, then the guarded refresh: on a network or HTTP error a truthy
cached value is returned as a stale fallback and an empty cache re-raises;
a structurally invalid body raises and caches nothing; a valid body is
cached with the current timestamp and returned. -/
def jwks_fetch (domain : String) (cache : JwksCache) (now : Int) (outcome : FetchOutcome) :
    Except JwksErr (PyVal × JwksCache) :=
  if domain = "" then .error .configError
  else if cacheTruthy cache.keys && decide (now - cache.ts < cache.ttl) then
    .ok (cache.keys.getD PyVal.none, cache)
  else
    match outcome with
    | .netError =>
      if cacheTruthy cache.keys then .ok (cache.keys.getD PyVal.none, cache)
      else .error .httpError
    | .response body =>
      if jwks_valid_structure body then .ok (body, ⟨some body, now, cache.ttl⟩)
      else .error .malformed
/-! ## Claim theorems -/

/-- The default `COMMIT_KEY` bytes (`"dev-commit-key"`). -/
def devKey : List Nat := utf8Encode "dev-commit-key"

/-- A concrete 32-byte signing key for closed instances. -/
def sk32 : List Nat := List.replicate 32 7

/-- C4 (code_bug): `issue_passport` samples the clock separately for `exp`
(line 106) and `issued_at` (line 117); when the second boundary falls
between the two samples (`t1 = 1000`, `t2 = 1001`, `ttl_s = 60`) the
issued passport carries `exp = 1060`, `issued_at = 1001`,
`ttl_s_original = 60`, violating the documented invariant
`exp = issued_at + ttl_s_original`; the invariant does hold whenever the
two samples agree. -/
theorem C4_exp_issued_at_drift :
    (py_get (issue_passport macSig devKey "a1" "s1" (PyVal.dict .nil) 60 "n0" sk32 1000 1001)
        "exp" (.int 0) = .ok (.int 1060) ∧
      py_get (issue_passport macSig devKey "a1" "s1" (PyVal.dict .nil) 60 "n0" sk32 1000 1001)
        "issued_at" (.int 0) = .ok (.int 1001) ∧
      py_get (issue_passport macSig devKey "a1" "s1" (PyVal.dict .nil) 60 "n0" sk32 1000 1001)
        "ttl_s_original" (.int 0) = .ok (.int 60) ∧
      (1060 : Int) ≠ 1001 + 60) ∧
    (∀ (S : SigScheme) (key : List Nat) (a s : String) (m : PyVal) (ttl : Int)
      (nonce : String) (sk : List Nat) (t : Int),
      py_get (issue_passport S key a s m ttl nonce sk t t) "exp" (.int 0) =
        .ok (.int (t + ttl)) ∧
      py_get (issue_passport S key a s m ttl nonce sk t t) "issued_at" (.int 0) =
        .ok (.int t)) :=
  ⟨⟨rfl, rfl, rfl, by decide⟩, fun S key a s m ttl nonce sk t => ⟨rfl, rfl⟩⟩

/-- C7 (counterexample): with the signing key file absent and the
environment mode "production", authy's startup key loading succeeds by
generating and persisting a fresh key, instead of failing fast — the
function never consults the mode. -/
theorem C7_counterexample :
    authy_startup_keys macSig "production" Option.none sk32 =
      .ok ((sk32, macSig.vkOf sk32), some sk32) ∧ "production" ≠ "development" :=
  ⟨rfl, by decide⟩

/-- C7 (amended): what the two key-loading paths actually do. authy's
`ensure_keypair` generates and persists a fresh key whenever the file is
absent, in every environment mode and without setting permissions; ismx's
`_load_keys` raises a `ValueError` when either key variable is missing
outside development mode, and in development mode generates an ephemeral
key pair that is never persisted. -/
theorem C7_key_loading :
    (∀ (S : SigScheme) (mode : String) (freshSk : List Nat),
      authy_startup_keys S mode Option.none freshSk =
        .ok ((freshSk, S.vkOf freshSk), some freshSk)) ∧
    (∀ (S : SigScheme) (sk vk : Option String) (env : String) (freshSk : List Nat),
      (envFalsy sk || envFalsy vk) = true → ¬env = "development" →
        ∃ msg, load_keys S sk vk env freshSk = .error msg) ∧
    (∀ (S : SigScheme) (sk vk : Option String) (freshSk : List Nat),
      (envFalsy sk || envFalsy vk) = true →
        load_keys S sk vk "development" freshSk = .ok (freshSk, S.vkOf freshSk)) := by
  refine ⟨fun S mode freshSk => rfl, ?_, ?_⟩
  · intro S sk vk env freshSk hf henv
    rw [load_keys, if_pos hf]
    rw [if_neg (by simp [henv])]
    exact ⟨_, rfl⟩
  · intro S sk vk freshSk hf
    rw [load_keys, if_pos hf]
    rw [if_pos (by simp)]

/-- C7 (witness): the amended statement applied at concrete inputs. -/
theorem C7_witness :
    authy_startup_keys macSig "staging" Option.none sk32 =
      .ok ((sk32, macSig.vkOf sk32), some sk32) ∧
    (∃ msg, load_keys macSig Option.none Option.none "production" sk32 = .error msg) ∧
    load_keys macSig (some "") (some "x") "development" sk32 = .ok (sk32, macSig.vkOf sk32) :=
  ⟨C7_key_loading.1 macSig "staging" sk32,
    C7_key_loading.2.1 macSig Option.none Option.none "production" sk32 (by decide) (by decide),
    C7_key_loading.2.2 macSig (some "") (some "x") sk32 (by decide)⟩

/-- C2 (confirmed): once a consuming validation of an issued lease has
returned `True`, the lease id is in the used-set, stays there across every
further sequence of lease operations, and any later validation of any
lease dictionary carrying that id returns `False` (for every scope and
consume flag) without changing the state. -/
theorem C2_lease_replay_defense (u a sc : String) (ttl : Int) (lid : String)
    (t1 t2 : Int) (st0 : LeaseState) (s1 : String) (now1 : Int) (st2 : LeaseState)
    (h : lease_valid (issue_capability_lease u a sc ttl lid t1 t2 st0).1 s1 true now1
        (issue_capability_lease u a sc ttl lid t1 t2 st0).2 = .ok (true, st2))
    (ops : List LeaseOp) (L2 : PyVal) (s2 : String) (c : Bool) (now2 : Int)
    (hsame : py_get L2 "lease_id" PyVal.none =
      py_get (issue_capability_lease u a sc ttl lid t1 t2 st0).1 "lease_id" PyVal.none) :
    lease_valid L2 s2 c now2 (leaseRun st2 ops) = .ok (false, leaseRun st2 ops) := by
  obtain ⟨v, hgv, hmem⟩ := lease_valid_consume_mem _ _ _ _ _ h
  have hmem2 : pyMem v (leaseRun st2 ops).used = true := leaseRun_used_mono ops st2 v hmem
  exact lease_valid_hit_used L2 s2 c now2 (leaseRun st2 ops) v (hsame.trans hgv) hmem2

/-- The concrete replay scenario: issue, consume once. -/
def c2issue : PyVal × LeaseState :=
  issue_capability_lease "u" "a" "tool:x" 30 "lid1" 0 0 ⟨[], []⟩

/-- The state after the first successful consuming validation. -/
def c2st : LeaseState :=
  match lease_valid c2issue.1 "tool:x" true 0 c2issue.2 with
  | .ok (_, st) => st
  | .error _ => ⟨[], []⟩

/-- C2 (witness): the replay-defense theorem at the concrete scenario of
the spec — the first consuming validation succeeds, the second returns
`False`. -/
theorem C2_witness :
    lease_valid c2issue.1 "tool:x" true 0 c2issue.2 = .ok (true, c2st) ∧
    lease_valid c2issue.1 "tool:x" true 0 c2st = .ok (false, c2st) := by
  constructor
  · rfl
  · exact C2_lease_replay_defense "u" "a" "tool:x" 30 "lid1" 0 0 ⟨[], []⟩ "tool:x" 0 c2st rfl
      [] c2issue.1 "tool:x" true 0 rfl

/-- C6 (confirmed): on a freshly issued, unexpired, unconsumed lease,
a consuming validation with the wrong scope returns `False` and leaves the
used-set unchanged, so an immediately following consuming validation with
the correct scope returns `True` (and only then consumes). -/
theorem C6_wrong_scope_no_consume (u a sc : String) (ttl : Int) (lid : String) (t1 t2 : Int)
    (st0 : LeaseState) (s2 : String) (now1 now2 : Int)
    (hlid : ¬lid = "") (hused : pyMem (.str lid) st0.used = false)
    (hsc : ¬sc = s2) (h1 : ¬now1 > t1 + ttl) (h2 : ¬now2 > t1 + ttl) :
    lease_valid (issue_capability_lease u a sc ttl lid t1 t2 st0).1 s2 true now1
        (issue_capability_lease u a sc ttl lid t1 t2 st0).2 =
      .ok (false, (issue_capability_lease u a sc ttl lid t1 t2 st0).2) ∧
    lease_valid (issue_capability_lease u a sc ttl lid t1 t2 st0).1 sc true now2
        (issue_capability_lease u a sc ttl lid t1 t2 st0).2 =
      .ok (true, ⟨.str lid :: st0.used,
        activeMarkUsed (issue_capability_lease u a sc ttl lid t1 t2 st0).2.active
          (.str lid)⟩) := by
  constructor
  · exact lease_valid_issued_wrong_scope u a sc ttl lid t1 t2 st0
      (issue_capability_lease u a sc ttl lid t1 t2 st0).2 s2 true now1 hlid hused h1 hsc
  · exact lease_valid_issued_consume u a sc ttl lid t1 t2 st0
      (issue_capability_lease u a sc ttl lid t1 t2 st0).2 now2 hlid hused h2

/-- C6 (witness): the no-consume property at the spec's concrete scenario
(`tool:x` lease, wrong scope `tool:y` first). -/
theorem C6_witness :
    lease_valid (issue_capability_lease "u" "a" "tool:x" 30 "lid1" 0 0 ⟨[], []⟩).1 "tool:y"
        true 1 (issue_capability_lease "u" "a" "tool:x" 30 "lid1" 0 0 ⟨[], []⟩).2 =
      .ok (false, (issue_capability_lease "u" "a" "tool:x" 30 "lid1" 0 0 ⟨[], []⟩).2) ∧
    lease_valid (issue_capability_lease "u" "a" "tool:x" 30 "lid1" 0 0 ⟨[], []⟩).1 "tool:x"
        true 2 (issue_capability_lease "u" "a" "tool:x" 30 "lid1" 0 0 ⟨[], []⟩).2 =
      .ok (true, ⟨[PyVal.str "lid1"],
        activeMarkUsed (issue_capability_lease "u" "a" "tool:x" 30 "lid1" 0 0 ⟨[], []⟩).2.active
          (.str "lid1")⟩) :=
  C6_wrong_scope_no_consume "u" "a" "tool:x" 30 "lid1" 0 0 ⟨[], []⟩ "tool:y" 1 2
    (by decide) (by decide) (by decide) (by decide) (by decide)

/-- C1 (counterexample): the claim's verification window `[t, t + ttl)` is
wrong at its right endpoint: for a passport issued at `t = 0` with
`ttl_s = 60`, observation time `60 = t + ttl` is claimed `false`, but the
code's expiry test `now > exp` still accepts it. -/
theorem C1_counterexample :
    (0 + 60 ≤ (60 : Int)) ∧
    verify_passport macSig devKey
        (issue_passport macSig devKey "a1" "s1" (PyVal.dict .nil) 60 "n0" sk32 0 0)
        "a1" "s1" (PyVal.dict .nil) 60 = .ok true := by
  refine ⟨by decide, ?_⟩
  rw [verify_issued_eq]
  norm_num

/-- C1 (amended): for every issued passport, `verify_passport` returns
`true` exactly when the observation time is at most `t + ttl_s_original`
(a closed right endpoint, not the claimed half-open one), the commitment
equals `hmac_commit` of the expected metrics, and the expected agent and
session ids equal the stored ones; the signature check always passes on an
honestly issued passport once the identifiers match, so it adds no further
condition. -/
theorem C1_roundtrip_characterization (S : SigScheme) (key : List Nat) (a s : String)
    (m : PyVal) (ttl : Int) (nonce : String) (sk : List Nat) (t1 t2 : Int)
    (a2 s2 : String) (m2 : PyVal) (now : Int)
    (_httl : 0 < ttl) (_ha : ¬a = "") (_hs : ¬s = "") :
    verify_passport S key (issue_passport S key a s m ttl nonce sk t1 t2) a2 s2 m2 now =
        .ok true ↔
      (now ≤ t1 + ttl ∧ hmac_commit key m2 = hmac_commit key m ∧ a2 = a ∧ s2 = s) := by
  rw [verify_issued_eq]
  simp only [Except.ok.injEq, Bool.and_eq_true, Bool.not_eq_true', decide_eq_false_iff_not,
    beq_iff_eq]
  constructor
  · rintro ⟨⟨⟨hn, hc⟩, ha2⟩, hs2⟩
    exact ⟨by omega, hc, ha2.symm, hs2.symm⟩
  · rintro ⟨hn, hc, ha2, hs2⟩
    exact ⟨⟨⟨by omega, hc⟩, ha2.symm⟩, hs2.symm⟩

/-- C1 (witness): the characterization applied at the concrete happy-path
scenario of the spec. -/
theorem C1_witness :
    (0 : Int) < 60 ∧ ¬"a1" = "" ∧ ¬"s1" = "" ∧
    (verify_passport macSig devKey
        (issue_passport macSig devKey "a1" "s1" (PyVal.dict .nil) 60 "n0" sk32 0 0)
        "a1" "s1" (PyVal.dict .nil) 10 = .ok true ↔
      ((10 : Int) ≤ 0 + 60 ∧
        hmac_commit devKey (PyVal.dict .nil) = hmac_commit devKey (PyVal.dict .nil) ∧
        "a1" = "a1" ∧ "s1" = "s1")) :=
  ⟨by decide, by decide, by decide,
    C1_roundtrip_characterization macSig devKey "a1" "s1" (PyVal.dict .nil) 60 "n0" sk32 0 0
      "a1" "s1" (PyVal.dict .nil) 10 (by decide) (by decide) (by decide)⟩

/-- Little-endian radix-256 reading of a digest. -/
def digestCode : List Nat → Nat
  | [] => 0
  | b :: tl => b + 256 * digestCode tl

theorem digestCode_lt : ∀ l : List Nat, (∀ b ∈ l, b < 256) → digestCode l < 256 ^ l.length
  | [] => fun _ => by simp [digestCode]
  | b :: tl => fun h => by
    have hb : b < 256 := h b (by simp)
    have ht := digestCode_lt tl (fun x hx => h x (by simp [hx]))
    have h2 : b + 256 * digestCode tl < 256 * (digestCode tl + 1) := by omega
    have h3 : 256 * (digestCode tl + 1) ≤ 256 * 256 ^ tl.length := by
      exact Nat.mul_le_mul_left 256 ht
    simp only [digestCode, List.length_cons, pow_succ]
    omega

theorem digestCode_inj : ∀ l1 l2 : List Nat, l1.length = l2.length →
    (∀ b ∈ l1, b < 256) → (∀ b ∈ l2, b < 256) → digestCode l1 = digestCode l2 → l1 = l2
  | [], [] => fun _ _ _ _ => rfl
  | [], b2 :: t2 => fun hlen => by simp at hlen
  | b1 :: t1, [] => fun hlen => by simp at hlen
  | b1 :: t1, b2 :: t2 => fun hlen h1 h2 heq => by
    have hb1 : b1 < 256 := h1 b1 (by simp)
    have hb2 : b2 < 256 := h2 b2 (by simp)
    simp only [digestCode] at heq
    have hparts : b1 = b2 ∧ digestCode t1 = digestCode t2 := by omega
    have ht := digestCode_inj t1 t2 (by simpa using hlen)
      (fun x hx => h1 x (by simp [hx])) (fun x hx => h2 x (by simp [hx])) hparts.2
    simp [hparts.1, ht]

/-- The metrics dictionary family used for the pigeonhole argument. -/
def mNat (n : Nat) : PyVal := .dict (.cons "k" (.int (Int.ofNat n)) .nil)

/-- Infinitely many metrics dictionaries map into the finite set of 32-byte
HMAC digests, so two distinct ones share a commitment. -/
theorem hmac_collision (key : List Nat) : ∃ n n2 : Nat, n ≠ n2 ∧
    hmacSha256 key (jsonBytes (mNat n)) = hmacSha256 key (jsonBytes (mNat n2)) := by
  have hbound : ∀ n : Nat, digestCode (hmacSha256 key (jsonBytes (mNat n))) < 256 ^ 32 := by
    intro n
    have h := digestCode_lt (hmacSha256 key (jsonBytes (mNat n)))
      (hmacSha256_bytes_lt key (jsonBytes (mNat n)))
    rwa [hmacSha256_length key (jsonBytes (mNat n))] at h
  obtain ⟨n, n2, hne, heq⟩ := Finite.exists_ne_map_eq_of_infinite
    (fun n : Nat => (⟨digestCode (hmacSha256 key (jsonBytes (mNat n))), hbound n⟩ : Fin (256 ^ 32)))
  refine ⟨n, n2, hne, ?_⟩
  have hcode : digestCode (hmacSha256 key (jsonBytes (mNat n))) =
      digestCode (hmacSha256 key (jsonBytes (mNat n2))) := by
    simpa [Fin.mk.injEq] using heq
  exact digestCode_inj _ _
    (by rw [hmacSha256_length, hmacSha256_length])
    (hmacSha256_bytes_lt _ _) (hmacSha256_bytes_lt _ _) hcode

/-- C5 (counterexample): the claim "for every `m' ≠ m`, verification with
`m'` is false" is refuted by pigeonhole — the commitment is an HMAC-SHA256
digest, so among the infinitely many metrics dictionaries two distinct
ones share a commitment, and verification of a passport issued over one
succeeds with the other. -/
theorem C5_counterexample : ∃ m m2 : PyVal, m ≠ m2 ∧
    verify_passport macSig devKey
        (issue_passport macSig devKey "a1" "s1" m 60 "n0" sk32 0 0)
        "a1" "s1" m2 0 = .ok true := by
  obtain ⟨n, n2, hne, heq⟩ := hmac_collision devKey
  refine ⟨mNat n, mNat n2, by simp [mNat, hne], ?_⟩
  rw [verify_issued_eq]
  have hc : hmac_commit devKey (mNat n2) = hmac_commit devKey (mNat n) := by
    unfold hmac_commit
    rw [heq]
  rw [hc]
  norm_num

/-- C5 (amended): what the commitment check actually enforces — for every
issued passport and every expected metrics value whose `hmac_commit`
differs from the issued one, `verify_passport` returns `false`. Equality
of metrics is enforced only up to HMAC-SHA256 collisions of their
canonical JSON. -/
theorem C5_metric_soundness (S : SigScheme) (key : List Nat) (a s : String) (m : PyVal)
    (ttl : Int) (nonce : String) (sk : List Nat) (t1 t2 : Int)
    (a2 s2 : String) (m2 : PyVal) (now : Int)
    (hne : ¬hmac_commit key m2 = hmac_commit key m) :
    verify_passport S key (issue_passport S key a s m ttl nonce sk t1 t2) a2 s2 m2 now =
      .ok false := by
  rw [verify_issued_eq]
  have hb : (hmac_commit key m2 == hmac_commit key m) = false := by simp [hne]
  simp [hb]

/-- C5 (witness): the amended soundness at two concrete metrics
dictionaries with distinct commitments. -/
theorem C5_witness :
    ¬hmac_commit devKey (mNat 1) = hmac_commit devKey (PyVal.dict .nil) ∧
    verify_passport macSig devKey
        (issue_passport macSig devKey "a1" "s1" (PyVal.dict .nil) 60 "n0" sk32 0 0)
        "a1" "s1" (mNat 1) 0 = .ok false :=
  ⟨by decide,
    C5_metric_soundness macSig devKey "a1" "s1" (PyVal.dict .nil) 60 "n0" sk32 0 0
      "a1" "s1" (mNat 1) 0 (by decide)⟩

theorem char_toNat_ofNat (n : Nat) (h : n < 55296) : (Char.ofNat n).toNat = n := by
  rw [Char.ofNat, dif_pos (Or.inl h)]
  simp [Char.ofNatAux, Char.toNat, UInt32.ofNat', UInt32.toNat]

theorem hexVal_cases (c : Char) (h : (hexVal c).isSome = true) :
    (48 ≤ c.toNat ∧ c.toNat ≤ 57) ∨ (97 ≤ c.toNat ∧ c.toNat ≤ 102) ∨
      (65 ≤ c.toNat ∧ c.toNat ≤ 70) := by
  rw [hexVal] at h
  split at h
  · exact Or.inl (by assumption)
  · split at h
    · exact Or.inr (Or.inl (by assumption))
    · split at h
      · exact Or.inr (Or.inr (by assumption))
      · simp at h

theorem hex_toLower (c : Char) (h : (hexVal c).isSome = true) :
    isHexLowerChar (Char.toLower c) = true := by
  rcases hexVal_cases c h with hr | hr | hr
  · rw [Char.toLower, if_neg (by omega)]
    simp only [isHexLowerChar]
    simp only [Bool.or_eq_true, Bool.and_eq_true, decide_eq_true_eq]
    omega
  · rw [Char.toLower, if_neg (by omega)]
    simp only [isHexLowerChar]
    simp only [Bool.or_eq_true, Bool.and_eq_true, decide_eq_true_eq]
    omega
  · rw [Char.toLower, if_pos (by omega)]
    simp only [isHexLowerChar]
    simp only [Bool.or_eq_true, Bool.and_eq_true, decide_eq_true_eq]
    rw [char_toNat_ofNat (c.toNat + 32) (by omega)]
    omega

theorem hex_ne_char (c : Char) (h : (hexVal c).isSome = true) (d : Char)
    (hd : 103 ≤ d.toNat ∨ (58 ≤ d.toNat ∧ d.toNat ≤ 64) ∨ d.toNat < 48 ∨
      (71 ≤ d.toNat ∧ d.toNat ≤ 96)) : (c == d) = false := by
  rcases hexVal_cases c h with hr | hr | hr <;>
    · rw [beq_eq_false_iff_ne]
      intro he
      subst he
      omega

theorem stripEnds_mem (ch : Char) (l : List Char) (x : Char) (hx : x ∈ stripEnds ch l) :
    x ∈ l := by
  rw [stripEnds] at hx
  rw [List.mem_reverse] at hx
  have h1 := (List.dropWhile_sublist (fun y => y == ch)).mem hx
  rw [List.mem_reverse] at h1
  exact (List.dropWhile_sublist (fun y => y == ch)).mem h1

theorem fromhexPairs_all : ∀ l : List Char, l.all (fun c => (hexVal c).isSome) = true →
    l.length % 2 = 0 → ∃ bs, fromhexPairs l = some bs
  | [] => fun _ _ => ⟨[], rfl⟩
  | [c] => fun _ hlen => by simp at hlen
  | c1 :: c2 :: rest => fun hall hlen => by
    simp only [List.all_cons, Bool.and_eq_true] at hall
    obtain ⟨v1, hv1⟩ := Option.isSome_iff_exists.mp hall.1
    obtain ⟨v2, hv2⟩ := Option.isSome_iff_exists.mp hall.2.1
    obtain ⟨tl, htl⟩ := fromhexPairs_all rest (by simpa using hall.2.2)
      (by simp only [List.length_cons] at hlen; omega)
    exact ⟨(v1 * 16 + v2) :: tl, by rw [fromhexPairs, hv1, hv2, htl]⟩

/-- C8 (counterexample): the 33-character secret `"a"*33` is purely
hexadecimal with length at least 32, so the claim requires hex decoding
without raising; the code instead raises a `ValueError`
(`bytes.fromhex` on an odd-length string). -/
theorem C8_counterexample :
    (String.mk (List.replicate 33 'a')).data.all (fun c => (hexVal c).isSome) = true ∧
    32 ≤ (String.mk (List.replicate 33 'a')).length ∧
    hmac_metrics (String.mk (List.replicate 33 'a')) (PyVal.dict .nil) =
      .error .valueError := by
  refine ⟨by decide, by decide, rfl⟩

/-- C8 (amended): the key derivation with the x-stripping heuristic as
implemented. A purely hexadecimal secret (either case) of even length at
least 32 satisfies the heuristic and is hex-decoded, and `hmac_metrics`
returns the HMAC-SHA256 hex digest under the decoded key; a secret
failing the heuristic is used as raw UTF-8 bytes. Secrets that satisfy the
heuristic but are not valid even-length hex (odd length, or hex framed by
`x` characters) make `bytes.fromhex` raise a `ValueError`. -/
theorem C8_metrics_key_derivation :
    (∀ (s : String) (p : PyVal), s.data.all (fun c => (hexVal c).isSome) = true →
      32 ≤ s.length → s.length % 2 = 0 →
      ∃ key, py_fromhex s = .ok key ∧
        hmac_metrics s p = .ok (hexdigest (hmacSha256 key (jsonBytes p)))) ∧
    (∀ (s : String) (p : PyVal), metricsHexCond s = false →
      hmac_metrics s p = .ok (hexdigest (hmacSha256 (utf8Encode s) (jsonBytes p)))) := by
  constructor
  · intro s p hall hlen heven
    have hall2 : ∀ c ∈ s.data, (hexVal c).isSome = true := by
      rw [List.all_eq_true] at hall
      exact fun c hc => hall c hc
    have hnospace : s.data.filter (fun c => !(c == ' ')) = s.data := by
      rw [List.filter_eq_self]
      intro c hc
      simp [hex_ne_char c (hall2 c hc) ' ' (by right; right; left; decide)]
    have hnox : s.data.filter (fun c => !(c == 'x')) = s.data := by
      rw [List.filter_eq_self]
      intro c hc
      simp [hex_ne_char c (hall2 c hc) 'x' (by left; decide)]
    have hcond : metricsHexCond s = true := by
      rw [metricsHexCond]
      simp only [Bool.and_eq_true]
      refine ⟨?_, ?_⟩
      · rw [List.all_eq_true]
        intro c hc
        have hc2 := stripEnds_mem 'x' (strLower s).data c hc
        rw [strLower] at hc2
        simp only [List.mem_map] at hc2
        obtain ⟨c0, hc0, rfl⟩ := hc2
        exact hex_toLower c0 (hall2 c0 hc0)
      · rw [hnox]
        simp only [decide_eq_true_eq]
        exact hlen
    obtain ⟨bs, hbs⟩ := fromhexPairs_all s.data hall heven
    have hfh : py_fromhex s = .ok bs := by
      rw [py_fromhex, hnospace, hbs]
    refine ⟨bs, hfh, ?_⟩
    rw [hmac_metrics, hcond]
    rw [if_pos rfl, hfh]
    simp only [ebind_ok, epure]
  · intro s p hcond
    rw [hmac_metrics, hcond]
    rw [if_neg (by simp)]
    simp only [epure, ebind_ok]

/-- C8 (witness): the amended derivation at two concrete secrets: 32
lowercase hex characters decode to 16 bytes of 0xaa, and a short raw
secret is used as UTF-8 bytes. -/
theorem C8_witness :
    hmac_metrics (String.mk (List.replicate 32 'a')) (PyVal.dict .nil) =
      .ok (hexdigest (hmacSha256 (List.replicate 16 170) (jsonBytes (PyVal.dict .nil)))) ∧
    hmac_metrics "k" (PyVal.dict .nil) =
      .ok (hexdigest (hmacSha256 (utf8Encode "k") (jsonBytes (PyVal.dict .nil)))) := by
  constructor
  · obtain ⟨key, hk, hm⟩ := C8_metrics_key_derivation.1 (String.mk (List.replicate 32 'a'))
      (PyVal.dict .nil) (by decide) (by decide) (by decide)
    have hk2 : py_fromhex (String.mk (List.replicate 32 'a')) =
        .ok (List.replicate 16 170) := rfl
    rw [hk] at hk2
    simp only [Except.ok.injEq] at hk2
    rw [← hk2]
    exact hm
  · exact C8_metrics_key_derivation.2 "k" (PyVal.dict .nil) (by decide)

/-- C9 (confirmed): failure semantics of the JWKS refresh. With a stale
cached document whose keys array is nonempty, a network or HTTP error
returns the stale document and leaves the cache unchanged; with an empty
cache the error propagates; a structurally invalid response always fails
(the cache, updated only on the valid branch, stays unchanged). -/
theorem C9_jwks_failure_semantics :
    (∀ (domain : String) (cache : JwksCache) (now : Int) (d : PyDict)
      (ks : PyVal) (tl : PyList),
      ¬domain = "" → cache.keys = some (.dict d) →
      dictGet d "keys" = some (.list (.cons ks tl)) →
      ¬(now - cache.ts < cache.ttl) →
      jwks_fetch domain cache now .netError = .ok (.dict d, cache)) ∧
    (∀ (domain : String) (cache : JwksCache) (now : Int),
      ¬domain = "" → cache.keys = Option.none →
      jwks_fetch domain cache now .netError = .error .httpError) ∧
    (∀ (domain : String) (cache : JwksCache) (now : Int) (body : PyVal),
      ¬domain = "" → jwks_valid_structure body = false →
      (cacheTruthy cache.keys = false ∨ ¬(now - cache.ts < cache.ttl)) →
      jwks_fetch domain cache now (.response body) = .error .malformed) := by
  refine ⟨?_, ?_, ?_⟩
  · intro domain cache now d ks tl hdom hck hkeys hstale
    have hd : d ≠ PyDict.nil := by
      intro he
      rw [he] at hkeys
      simp [dictGet] at hkeys
    have htr : cacheTruthy cache.keys = true := by
      rw [hck]
      cases d with
      | nil => exact absurd rfl hd
      | cons k v tl2 => rfl
    rw [jwks_fetch, if_neg hdom]
    rw [htr]
    rw [if_neg (by simp [hstale])]
    rw [hck]
    rfl
  · intro domain cache now hdom hck
    rw [jwks_fetch, if_neg hdom, hck]
    rfl
  · intro domain cache now body hdom hbad hslow
    rw [jwks_fetch, if_neg hdom]
    have hcond : (cacheTruthy cache.keys && decide (now - cache.ts < cache.ttl)) = false := by
      rcases hslow with h | h
      · simp [h]
      · simp [h]
    rw [hcond, if_neg (by simp)]
    simp [hbad]

/-- C9 (witness): the three failure branches at concrete cache states. -/
theorem C9_witness :
    jwks_fetch "auth.example" ⟨some (.dict (.cons "keys" (.list (.cons (.str "k1") .nil)) .nil)),
        0, 300⟩ 1000 .netError =
      .ok (.dict (.cons "keys" (.list (.cons (.str "k1") .nil)) .nil),
        ⟨some (.dict (.cons "keys" (.list (.cons (.str "k1") .nil)) .nil)), 0, 300⟩) ∧
    jwks_fetch "auth.example" ⟨Option.none, 0, 300⟩ 1000 .netError = .error .httpError ∧
    jwks_fetch "auth.example" ⟨Option.none, 0, 300⟩ 1000 (.response (.list .nil)) =
      .error .malformed :=
  ⟨C9_jwks_failure_semantics.1 "auth.example" ⟨some (.dict (.cons "keys"
        (.list (.cons (.str "k1") .nil)) .nil)), 0, 300⟩ 1000
      (.cons "keys" (.list (.cons (.str "k1") .nil)) .nil) (.str "k1") .nil
      (by decide) rfl rfl (by decide),
    C9_jwks_failure_semantics.2.1 "auth.example" ⟨Option.none, 0, 300⟩ 1000 (by decide) rfl,
    C9_jwks_failure_semantics.2.2 "auth.example" ⟨Option.none, 0, 300⟩ 1000 (.list .nil)
      (by decide) (by decide) (Or.inl rfl)⟩

theorem is_revoked_revoke_jti (J : String) (rev : List String) :
    is_revoked J (revoke_jti J rev) = true := by
  rw [revoke_jti]
  cases hc : rev.contains J
  · rw [if_neg (by simp [hc])]
    simp [is_revoked, List.contains_cons]
  · rw [if_pos rfl]
    exact hc

theorem is_revoked_mono (J j2 : String) (rev : List String) (h : is_revoked J rev = true) :
    is_revoked J (revoke_jti j2 rev) = true := by
  rw [revoke_jti]
  cases hc : rev.contains j2
  · rw [if_neg (by simp [hc])]
    have hm : J ∈ rev := by simpa [is_revoked] using h
    simp [is_revoked, List.contains_cons, hm]
  · rw [if_pos rfl]
    exact h

theorem is_revoked_revoke_many (J : String) (rev js : List String)
    (h : is_revoked J rev = true) : is_revoked J (revoke_many rev js) = true := by
  induction js generalizing rev with
  | nil => exact h
  | cons j tl ih => exact ih (revoke_jti j rev) (is_revoked_mono J j rev h)

/-- `authy_verify_payload` reports `valid=True` only after the revocation
lookup on the echoed `jti` came back negative. -/
theorem authy_payload_valid_not_revoked (rev : List String) (now : Int) (payload : PyVal)
    (r : VerifyResp) (h : authy_verify_payload rev now payload = .ok r)
    (hv : r.valid = true) : is_revoked_val r.jti rev = false := by
  rw [authy_verify_payload] at h
  rcases payload with s0 | n0 | b0 | _ | l0 | dd
  · simp only [show py_get (PyVal.str s0) "exp" (PyVal.int 0) = .error .attributeError from rfl,
      ebind_err] at h
    simp at h
  · simp only [show py_get (PyVal.int n0) "exp" (PyVal.int 0) = .error .attributeError from rfl,
      ebind_err] at h
    simp at h
  · simp only [show py_get (PyVal.bool b0) "exp" (PyVal.int 0) = .error .attributeError from rfl,
      ebind_err] at h
    simp at h
  · simp only [show py_get PyVal.none "exp" (PyVal.int 0) = .error .attributeError from rfl,
      ebind_err] at h
    simp at h
  · simp only [show py_get (PyVal.list l0) "exp" (PyVal.int 0) = .error .attributeError from rfl,
      ebind_err] at h
    simp at h
  · have e1 : py_get (PyVal.dict dd) "exp" (PyVal.int 0) =
        .ok ((dictGet dd "exp").getD (PyVal.int 0)) := rfl
    simp only [e1, ebind_ok] at h
    rcases hlt : pyLtInt ((dictGet dd "exp").getD (PyVal.int 0)) now with e | bex
    · simp only [hlt, ebind_err] at h
      simp at h
    · simp only [hlt, ebind_ok] at h
      cases hbex : bex
      · rw [hbex] at h
        rw [if_neg (by simp)] at h
        have e2 : py_get (PyVal.dict dd) "jti" PyVal.none =
            .ok ((dictGet dd "jti").getD PyVal.none) := rfl
        simp only [e2, ebind_ok] at h
        cases hb : pyTruthy ((dictGet dd "jti").getD PyVal.none)
        · rw [hb] at h
          rw [if_pos (by simp)] at h
          simp only [epure, Except.ok.injEq] at h
          rw [← h] at hv
          simp at hv
        · rw [hb] at h
          rw [if_neg (by simp)] at h
          cases hrv : is_revoked_val ((dictGet dd "jti").getD PyVal.none) rev
          · rw [hrv] at h
            rw [if_neg (by simp)] at h
            have e3 : py_get (PyVal.dict dd) "sub" PyVal.none =
                .ok ((dictGet dd "sub").getD PyVal.none) := rfl
            have e4 : py_get (PyVal.dict dd) "scope" PyVal.none =
                .ok ((dictGet dd "scope").getD PyVal.none) := rfl
            have e5 : py_get (PyVal.dict dd) "org_id" PyVal.none =
                .ok ((dictGet dd "org_id").getD PyVal.none) := rfl
            have e6 : py_get (PyVal.dict dd) "exp" PyVal.none =
                .ok ((dictGet dd "exp").getD PyVal.none) := rfl
            have e7 : py_get (PyVal.dict dd) "kid" PyVal.none =
                .ok ((dictGet dd "kid").getD PyVal.none) := rfl
            simp only [e3, e4, e5, e6, e7, ebind_ok, epure, Except.ok.injEq] at h
            rw [← h]
            exact hrv
          · rw [hrv] at h
            rw [if_pos rfl] at h
            simp only [epure, Except.ok.injEq] at h
            rw [← h] at hv
            simp at hv
      · rw [hbex] at h
        rw [if_pos rfl] at h
        simp only [epure, Except.ok.injEq] at h
        rw [← h] at hv
        simp at hv

/-- `authy_verify` reports `valid=True` only for a token whose `jti` is
absent from the revocations table at lookup time. -/
theorem authy_verify_valid_not_revoked (S : SigScheme) (vk : List Nat) (t : TokenT)
    (rev : List String) (now : Int) (r : VerifyResp)
    (h : authy_verify S vk t rev now = .ok r) (hv : r.valid = true) :
    is_revoked_val r.jti rev = false := by
  rw [authy_verify] at h
  rcases hvc : verify_compact S t vk with msg | hp
  · rw [hvc] at h
    replace h : Except.ok ({ valid := false, reason := some msg } : VerifyResp) =
        Except.ok r := h
    simp only [Except.ok.injEq] at h
    rw [← h] at hv
    simp at hv
  · rw [hvc] at h
    replace h : authy_verify_payload rev now hp.2 = Except.ok r := h
    exact authy_payload_valid_not_revoked rev now hp.2 r h hv

/-- For an honestly signed token carrying a nonempty `jti` and an integer
`exp` that has not passed, verification against a ledger that revoked that
`jti` (followed by any further revocations) reports `reason="revoked"`. -/
theorem authy_verify_revoked_rsn (S : SigScheme) (sk : List Nat) (header payload : PyVal)
    (rev js : List String) (now : Int) (J : String) (e : Int)
    (hjti : py_get payload "jti" PyVal.none = .ok (.str J)) (hJ : ¬J = "")
    (hexp : py_get payload "exp" (.int 0) = .ok (.int e)) (hnow : ¬e < now) :
    authy_verify S (S.vkOf sk) (sign_compact S header payload sk)
        (revoke_many (revoke_jti J rev) js) now =
      .ok { valid := false, reason := some "revoked" } := by
  have hsig : verify_compact S (sign_compact S header payload sk) (S.vkOf sk) =
      .ok (header, payload) := by
    rw [verify_compact, sign_compact]
    simp [S.sign_verify]
  rw [authy_verify, hsig]
  show authy_verify_payload (revoke_many (revoke_jti J rev) js) now payload =
    .ok { valid := false, reason := some "revoked" }
  have hr : is_revoked_val (PyVal.str J) (revoke_many (revoke_jti J rev) js) = true :=
    is_revoked_revoke_many J (revoke_jti J rev) js (is_revoked_revoke_jti J rev)
  rw [authy_verify_payload]
  simp only [hexp, ebind_ok, pyLtInt]
  rw [if_neg (by simp [hnow])]
  simp only [hjti, ebind_ok]
  rw [if_neg (by simp [pyTruthy, hJ])]
  rw [hr, if_pos rfl]
  rfl

/-- C3 (amended): revocation semantics as implemented. A `valid=True`
response is only produced after the revocation ledger cleared the token's
`jti`, and once a `jti` is revoked (the table only ever grows) every later
verification of an honestly signed, unexpired token carrying it reports
`valid=False` with reason "revoked"; an expired revoked token instead
reports reason "expired" (expiry is checked first). -/
theorem C3_revocation :
    (∀ (S : SigScheme) (vk : List Nat) (t : TokenT) (rev : List String) (now : Int)
      (r : VerifyResp), authy_verify S vk t rev now = .ok r → r.valid = true →
        is_revoked_val r.jti rev = false) ∧
    (∀ (S : SigScheme) (sk : List Nat) (header payload : PyVal) (rev js : List String)
      (now : Int) (J : String) (e : Int),
      py_get payload "jti" PyVal.none = .ok (.str J) → ¬J = "" →
      py_get payload "exp" (.int 0) = .ok (.int e) → ¬e < now →
      authy_verify S (S.vkOf sk) (sign_compact S header payload sk)
          (revoke_many (revoke_jti J rev) js) now =
        .ok { valid := false, reason := some "revoked" }) :=
  ⟨fun S vk t rev now r => authy_verify_valid_not_revoked S vk t rev now r,
    fun S sk header payload rev js now J e hj hJ he hn =>
      authy_verify_revoked_rsn S sk header payload rev js now J e hj hJ he hn⟩

/-- A minimal concrete token header. -/
def c3hdr : PyVal := .dict (.cons "alg" (.str "Ed25519") (.cons "kid" (.int 1) .nil))

/-- A concrete payload: expires at 100, identifier "J". -/
def c3pl : PyVal := .dict (.cons "exp" (.int 100) (.cons "jti" (.str "J") .nil))

/-- C3 (counterexample): after revoking `jti="J"`, verifying the (still
honestly signed) token at time 101 — past its expiry — returns
`reason="expired"`, not the claimed `"revoked"`: the expiry check runs
before the revocation lookup. -/
theorem C3_counterexample :
    is_revoked "J" (revoke_jti "J" []) = true ∧
    authy_verify macSig (macSig.vkOf sk32) (sign_compact macSig c3hdr c3pl sk32)
        (revoke_jti "J" []) 101 =
      .ok { valid := false, reason := some "expired" } :=
  ⟨rfl, rfl⟩

/-- The concrete valid response used by the C3 witness. -/
def c3resp : VerifyResp :=
  match authy_verify macSig (macSig.vkOf sk32) (sign_compact macSig c3hdr c3pl sk32) [] 50 with
  | .ok r => r
  | .error _ => { valid := false }

/-- C3 (witness): both amended clauses at concrete inputs — an accepted
token's `jti` was checked against the ledger, and a revoked unexpired
token reports "revoked". -/
theorem C3_witness :
    is_revoked_val c3resp.jti [] = false ∧
    authy_verify macSig (macSig.vkOf sk32) (sign_compact macSig c3hdr c3pl sk32)
        (revoke_many (revoke_jti "J" []) []) 50 =
      .ok { valid := false, reason := some "revoked" } :=
  ⟨C3_revocation.1 macSig (macSig.vkOf sk32) (sign_compact macSig c3hdr c3pl sk32) [] 50
      c3resp rfl rfl,
    C3_revocation.2 macSig sk32 c3hdr c3pl [] [] 50 "J" 100 rfl (by decide) rfl (by decide)⟩

theorem py_int_caught (v : PyVal) (e : PyExc) (h : py_int v = .error e) : pyCaught e = true := by
  cases v with
  | str s =>
    simp only [py_int] at h
    cases hp : parseIntStr s with
    | none =>
      rw [hp] at h
      replace h : (Except.error PyExc.valueError : Except PyExc Int) = Except.error e := h
      simp only [Except.error.injEq] at h
      rw [← h]
      rfl
    | some n =>
      rw [hp] at h
      replace h : (Except.ok n : Except PyExc Int) = Except.error e := h
      simp at h
  | int n => simp [py_int] at h
  | bool b => simp [py_int] at h
  | none =>
    simp only [py_int, Except.error.injEq] at h
    rw [← h]
    rfl
  | list l =>
    simp only [py_int, Except.error.injEq] at h
    rw [← h]
    rfl
  | dict d =>
    simp only [py_int, Except.error.injEq] at h
    rw [← h]
    rfl

theorem compare_digest_caught (a : String) (b : PyVal) (e : PyExc)
    (h : compare_digest a b = .error e) : pyCaught e = true := by
  cases b <;> simp only [compare_digest, Except.error.injEq] at h <;>
    first
      | simp at h
      | (rw [← h]; rfl)

theorem py_item_dict_caught (d : PyDict) (k : String) (e : PyExc)
    (h : py_item (.dict d) k = .error e) : pyCaught e = true := by
  simp only [py_item] at h
  cases hg : dictGet d k with
  | some x =>
    rw [hg] at h
    replace h : (Except.ok x : Except PyExc PyVal) = Except.error e := h
    simp at h
  | none =>
    rw [hg] at h
    replace h : (Except.error PyExc.keyError : Except PyExc PyVal) = Except.error e := h
    simp only [Except.error.injEq] at h
    rw [← h]
    rfl

theorem py_b64decode_caught (v : PyVal) (e : PyExc) (h : py_b64decode v = .error e) :
    pyCaught e = true := by
  cases v with
  | str s =>
    simp only [py_b64decode] at h
    cases hd : b64decodeChars s.data with
    | some bs =>
      rw [hd] at h
      replace h : (Except.ok bs : Except PyExc (List Nat)) = Except.error e := h
      simp at h
    | none =>
      rw [hd] at h
      replace h : (Except.error PyExc.valueError : Except PyExc (List Nat)) = Except.error e := h
      simp only [Except.error.injEq] at h
      rw [← h]
      rfl
  | int n => simp only [py_b64decode, Except.error.injEq] at h; rw [← h]; rfl
  | bool b => simp only [py_b64decode, Except.error.injEq] at h; rw [← h]; rfl
  | none => simp only [py_b64decode, Except.error.injEq] at h; rw [← h]; rfl
  | list l => simp only [py_b64decode, Except.error.injEq] at h; rw [← h]; rfl
  | dict d => simp only [py_b64decode, Except.error.injEq] at h; rw [← h]; rfl

theorem nacl_VerifyKey_caught (bs : List Nat) (e : PyExc)
    (h : nacl_VerifyKey bs = .error e) : pyCaught e = true := by
  rw [nacl_VerifyKey] at h
  by_cases hl : bs.length = 32
  · rw [if_pos hl] at h
    simp at h
  · rw [if_neg hl] at h
    simp only [Except.error.injEq] at h
    rw [← h]
    rfl

theorem nacl_verify_caught (S : SigScheme) (vk msg sig : List Nat) (e : PyExc)
    (h : nacl_verify S vk msg sig = .error e) : pyCaught e = true := by
  rw [nacl_verify] at h
  by_cases hl : sig.length = 64
  · rw [if_pos hl] at h
    cases hv : S.sverify msg sig vk
    · rw [hv] at h
      rw [if_neg (by simp)] at h
      simp only [Except.error.injEq] at h
      rw [← h]
      rfl
    · rw [hv] at h
      rw [if_pos rfl] at h
      simp at h
  · rw [if_neg hl] at h
    simp only [Except.error.injEq] at h
    rw [← h]
    rfl

/-- On a dictionary passport, every exception the `verify_passport` body
can raise belongs to the caught classes
`(BadSignatureError, KeyError, ValueError, TypeError)`. -/
theorem verify_body_dict_caught (S : SigScheme) (key : List Nat) (d : PyDict)
    (a s : String) (m : PyVal) (now : Int) (e : PyExc)
    (hbody : verify_passport_body S key (.dict d) a s m now = .error e) :
    pyCaught e = true := by
  rw [verify_passport_body] at hbody
  have e1 : py_get (PyVal.dict d) "exp" (PyVal.int 0) =
      .ok ((dictGet d "exp").getD (PyVal.int 0)) := rfl
  simp only [e1, ebind_ok] at hbody
  rcases h2 : py_int ((dictGet d "exp").getD (PyVal.int 0)) with e2 | n
  · simp only [h2, ebind_err, Except.error.injEq] at hbody
    rw [← hbody]
    exact py_int_caught _ _ h2
  · simp only [h2, ebind_ok] at hbody
    by_cases hgt : now > n
    · rw [if_pos hgt] at hbody
      simp [epure] at hbody
    · rw [if_neg hgt] at hbody
      have e2b : py_get (PyVal.dict d) "commitment" (PyVal.str "") =
          .ok ((dictGet d "commitment").getD (PyVal.str "")) := rfl
      simp only [e2b, ebind_ok] at hbody
      rcases h3 : compare_digest (hmac_commit key m)
          ((dictGet d "commitment").getD (PyVal.str "")) with e3 | bcmp
      · simp only [h3, ebind_err, Except.error.injEq] at hbody
        rw [← hbody]
        exact compare_digest_caught _ _ _ h3
      · simp only [h3, ebind_ok] at hbody
        cases hcmp : bcmp
        · rw [hcmp] at hbody
          rw [if_pos (by simp)] at hbody
          simp [epure] at hbody
        · rw [hcmp] at hbody
          rw [if_neg (by simp)] at hbody
          have e4 : py_get (PyVal.dict d) "agent_id" PyVal.none =
              .ok ((dictGet d "agent_id").getD PyVal.none) := rfl
          simp only [e4, ebind_ok] at hbody
          cases h5 : ((dictGet d "agent_id").getD PyVal.none == PyVal.str a)
          · rw [h5] at hbody
            rw [if_pos (by simp)] at hbody
            simp [epure] at hbody
          · rw [h5] at hbody
            rw [if_neg (by simp)] at hbody
            have e6 : py_get (PyVal.dict d) "session_id" PyVal.none =
                .ok ((dictGet d "session_id").getD PyVal.none) := rfl
            simp only [e6, ebind_ok] at hbody
            cases h7 : ((dictGet d "session_id").getD PyVal.none == PyVal.str s)
            · rw [h7] at hbody
              rw [if_pos (by simp)] at hbody
              simp [epure] at hbody
            · rw [h7] at hbody
              rw [if_neg (by simp)] at hbody
              have e8 : py_get (PyVal.dict d) "ttl_s_original" (PyVal.int 60) =
                  .ok ((dictGet d "ttl_s_original").getD (PyVal.int 60)) := rfl
              simp only [e8, ebind_ok] at hbody
              rcases h9 : py_item (PyVal.dict d) "commitment" with e9 | cv
              · simp only [h9, ebind_err, Except.error.injEq] at hbody
                rw [← hbody]
                exact py_item_dict_caught _ _ _ h9
              · simp only [h9, ebind_ok] at hbody
                rcases h10 : py_item (PyVal.dict d) "nonce" with e10 | nv
                · simp only [h10, ebind_err, Except.error.injEq] at hbody
                  rw [← hbody]
                  exact py_item_dict_caught _ _ _ h10
                · simp only [h10, ebind_ok] at hbody
                  rcases h11 : py_item (PyVal.dict d) "vk_b64" with e11 | vkb
                  · simp only [h11, ebind_err, Except.error.injEq] at hbody
                    rw [← hbody]
                    exact py_item_dict_caught _ _ _ h11
                  · simp only [h11, ebind_ok] at hbody
                    rcases h12 : py_b64decode vkb with e12 | vkBytes
                    · simp only [h12, ebind_err, Except.error.injEq] at hbody
                      rw [← hbody]
                      exact py_b64decode_caught _ _ h12
                    · simp only [h12, ebind_ok] at hbody
                      rcases h13 : nacl_VerifyKey vkBytes with e13 | vk
                      · simp only [h13, ebind_err, Except.error.injEq] at hbody
                        rw [← hbody]
                        exact nacl_VerifyKey_caught _ _ h13
                      · simp only [h13, ebind_ok] at hbody
                        rcases h14 : py_item (PyVal.dict d) "sig_b64" with e14 | sigb
                        · simp only [h14, ebind_err, Except.error.injEq] at hbody
                          rw [← hbody]
                          exact py_item_dict_caught _ _ _ h14
                        · simp only [h14, ebind_ok] at hbody
                          rcases h15 : py_b64decode sigb with e15 | sig
                          · simp only [h15, ebind_err, Except.error.injEq] at hbody
                            rw [← hbody]
                            exact py_b64decode_caught _ _ h15
                          · simp only [h15, ebind_ok] at hbody
                            rcases h16 : nacl_verify S vk (pack_message a s cv
                                ((dictGet d "ttl_s_original").getD (PyVal.int 60)) nv) sig
                              with e16 | u
                            · simp only [h16, ebind_err, Except.error.injEq] at hbody
                              rw [← hbody]
                              exact nacl_verify_caught _ _ _ _ _ h16
                            · simp only [h16, ebind_ok, epure] at hbody
                              simp at hbody

/-- C10 (confirmed): `verify_passport` is total on dictionary passports —
whatever fields are missing, mistyped, or carry invalid base64, the body
raises only exception classes the `except` clause catches, so the result
is always a boolean and never a propagated exception. -/
theorem C10_verify_total_on_dicts (S : SigScheme) (key : List Nat) (d : PyDict)
    (a s : String) (m : PyVal) (now : Int) :
    ∃ b, verify_passport S key (.dict d) a s m now = .ok b := by
  rcases hbody : verify_passport_body S key (.dict d) a s m now with e | b
  · refine ⟨false, ?_⟩
    have hc : pyCaught e = true := verify_body_dict_caught S key d a s m now e hbody
    rw [verify_passport, hbody]
    show (if pyCaught e = true then Except.ok false else Except.error e) = Except.ok false
    rw [hc, if_pos rfl]
  · exact ⟨b, by rw [verify_passport, hbody]⟩
